import Mathlib

/-!
# cupaloy: the snapshot lifecycle engine

A shallow embedding of `cupaloy.go`, `config.go`, `util.go`, `snapshotter.go`,
`snapshotter_spew.go` and `snapshotter_gocmp.go`.

* Go values of type `interface{}` are the inductive type `Value`; `Snap` is `Value`.
* A Go `error` result is an `Option Error` (`none` is `nil`).
* The operating system is an explicit state `World`: a file system with its fault
  conditions, the process environment, and the trace of system calls made so far.
  Paths are resolved element by element, without symbolic links.
* A float64 is the rational number it stands for, and a float64 operation is the
  exact operation followed by rounding to the nearest float64.
* The third-party packages the source calls (go-spew, go-difflib, encoding/json,
  path/filepath, the text of a go-cmp report) are not part of the repository; the
  embedding takes them as a parameter `Lib`.
-/

namespace cupaloy

/-! ## Go values and errors -/

/-- Dynamic Go values (`interface{}`) that the snapshotters can be handed.
A float64 is kept as the rational number it stands for (NaN and the infinities are
left out); the entries of a `map` are kept
in key order, the order encoding/json and spew (SortKeys) emit them in. -/
inductive Value where
  | nil
  | str (s : String)
  | bytes (b : String)
  | int (n : Int)
  | float (q : ℚ)
  | bool (b : Bool)
  | slice (xs : List Value)
  | map (kvs : List (String × Value))

/-- Go: `type Snap interface{}` (snapshotter.go). -/
abbrev Snap := Value

/-- Go: `x == nil` for an interface value. -/
def Value.isNil : Value → Bool
  | .nil => true
  | _ => false

/-- Go: `s == x` for a string `s` and an interface value `x`: true exactly when the
dynamic type of `x` is `string` and the strings are equal. -/
def Value.eqString (s : String) : Value → Bool
  | .str t => decide (s = t)
  | _ => false

/-- Failure kinds of the modelled system calls. -/
inductive Errno where
  | ENOENT
  | EACCES
  | EISDIR
  | ENOTDIR
  | EEXIST
  | ENOSPC
deriving DecidableEq

/-- Go `error` values that can come out of the engine. The first four are the structs
of package `internal` (`ErrNoSnapshot`, `ErrSnapshotMismatch`, `ErrSnapshotCreated`,
`ErrSnapshotUpdated`), built by the source with exactly these fields. -/
inductive Error where
  | ErrNoSnapshot (Name : String)
  | ErrSnapshotMismatch (Diff : String)
  | ErrSnapshotCreated (Name : String) (Contents : Snap)
  | ErrSnapshotUpdated (Name : String) (Diff : String)
  | New (text : String)
  | PathError (op : String) (path : String) (errno : Errno)
  | Lib (pkg : String) (text : String)

/-- Go: `os.IsNotExist(err)`. -/
def os.IsNotExist : Option Error → Bool
  | some (.PathError _ _ .ENOENT) => true
  | _ => false

/-! ## Third-party packages -/

/-- Go: `spew.ConfigState`, the fields the source sets. -/
structure ConfigState where
  Indent : String
  SortKeys : Bool
  DisablePointerAddresses : Bool
  DisableCapacities : Bool
  SpewKeys : Bool
deriving DecidableEq

/-- Go: `difflib.UnifiedDiff`, the fields the source sets. -/
structure UnifiedDiff where
  A : List String
  B : List String
  FromFile : String
  FromDate : String
  ToFile : String
  ToDate : String
  Context : Int
deriving DecidableEq

/-- Go: a `cmp.Option`; the source builds only `cmpopts.EquateApprox(fraction, margin)`. -/
inductive CmpOption where
  | EquateApprox (fraction : ℚ) (margin : ℚ)

/-- The functions of third-party packages that the source calls.
* `Fdump c a` is the text `c.Fdump(w, a...)` writes to `w`, `Sdump c a` is `c.Sdump(a...)`.
* `SplitLines`, `GetUnifiedDiffString` are go-difflib (the error result of the
  latter is dropped by the source).
* `Encode pre indent v` is what a `json.Encoder` with `SetIndent(pre, indent)` writes
  for `v`, and its error; `Decode data` is the `[]interface{}` a `json.Decoder` over
  `data` leaves in its target, and its error.
* `Join`, `Base` are path/filepath.
* `Report x y opts` is the text go-cmp prints for two values it found different. -/
structure Lib where
  Fdump : ConfigState → List Value → String
  Sdump : ConfigState → List Value → String
  SplitLines : String → List String
  GetUnifiedDiffString : UnifiedDiff → String
  Encode : String → String → Value → String × Option Error
  Decode : String → Value × Option Error
  Join : String → String → String
  Base : String → String
  Report : Value → Value → List CmpOption → String

/-! ## The operating system -/

/-- What the engine does to its surroundings, in the order it does it: the `os` calls
of cupaloy.go, the bytes that reach a file through a snapshotter, and the calls of
the update predicate. -/
inductive Event where
  | Open (path : String)
  | MkdirAll (path : String)
  | Stat (path : String)
  | Create (path : String)
  | Write (path : String) (data : String)
  | Close (path : String)
  | ShouldUpdate
deriving DecidableEq

/-- File system state.
* `files`: the regular files, canonical name and content (the first entry for a
  name counts);
* `dirs`: the directories, by canonical name;
* `denied`: paths out of reach: open, create and mkdir on them fail, reported as a
  permission error;
* `full`: for a canonical name, how many bytes the device still accepts when that file is
  written (a path not listed accepts everything). -/
structure FS where
  files : List (String × String)
  dirs : List String
  denied : List String
  full : List (String × Nat)
deriving DecidableEq

/-- The world a call runs in. -/
structure World where
  fs : FS
  env : List (String × String)
  trace : List Event
deriving DecidableEq

/-- Elements of a path, split at its slashes; `cur` holds the element being read,
last character first. -/
def FS.elements (cur : List Char) : List Char → List String
  | [] => [String.mk cur.reverse]
  | c :: cs =>
    if c = '/' then String.mk cur.reverse :: FS.elements [] cs
    else FS.elements (c :: cur) cs

/-- The elements that name a place, last one first, after those of `es` have been
followed from `acc`: empty and `.` elements stay in place, `..` goes up one element,
or stays at the root, or is kept when a relative path leaves its starting point. -/
def FS.follow (rooted : Bool) : List String → List String → List String
  | acc, [] => acc
  | acc, e :: es =>
    if e = "" || e = "." then FS.follow rooted acc es
    else if e = ".." then
      match acc with
      | [] => if rooted then FS.follow rooted [] es else FS.follow rooted [".."] es
      | a :: rest =>
        if a = ".." then FS.follow rooted (".." :: acc) es else FS.follow rooted rest es
    else FS.follow rooted (e :: acc) es

/-- The canonical name of the place the elements `es` lead to: the working directory
is `.`, the root is `/`. -/
def FS.place (rooted : Bool) (es : List String) : String :=
  let body := "/".intercalate (FS.follow rooted [] es).reverse
  if rooted then "/" ++ body
  else if body = "" then "."
  else body

/-- Whether a path starts at the root. -/
def FS.rooted (path : String) : Bool :=
  path.data.head? = some '/'

/-- The canonical name of the place a path leads to; files and directories are kept
under these names. -/
def FS.key (path : String) : String :=
  FS.place (FS.rooted path) (FS.elements [] path.data)

/-- Whether a path ends in a slash or in a `.` element, and so can only name a
directory. -/
def FS.dirOnly (path : String) : Bool :=
  match (FS.elements [] path.data).reverse with
  | [] => false
  | e :: rest => (e = "" || e = ".") && !rest.isEmpty

/-- The elements of a path without the empty and `.` elements at its end. -/
def FS.trimmed (path : String) : List String :=
  ((FS.elements [] path.data).reverse.dropWhile (fun e => e = "" || e = ".")).reverse

/-- The places a path goes through before its last element, in order; each must be a
directory for the path to resolve. -/
def FS.via (path : String) : List String :=
  (FS.trimmed path).inits.dropLast.map (FS.place (FS.rooted path))

/-- Whether the place `key` is a directory: one of `dirs`, or the working directory,
the root, or a directory above the working directory. -/
def FS.isDir (fs : FS) (key : String) : Bool :=
  decide (key ∈ fs.dirs) ||
    (FS.elements [] key.data).all (fun e => e = "" || e = "." || e = "..")

/-- What stops a path before its last element, if anything does: the empty path names
nothing, and the first place on the way that is not a directory stops it, with ENOTDIR
when that place is a regular file and ENOENT when nothing is there. -/
def FS.stopped (fs : FS) (path : String) : Option Errno :=
  if path = "" then some .ENOENT
  else
    match (FS.via path).find? (fun k => !fs.isDir k) with
    | some k => if (fs.files.lookup k).isSome then some .ENOTDIR else some .ENOENT
    | none => none

/-- Why a path does not resolve, if it does not: it is stopped on the way, or it can
only name a directory and leads to a regular file. -/
def FS.blocked (fs : FS) (path : String) : Option Errno :=
  match fs.stopped path with
  | some errno => some errno
  | none =>
    if FS.dirOnly path && (fs.files.lookup (FS.key path)).isSome then some .ENOTDIR
    else none

/-- Content of the regular file at `path`, if the path resolves to one. -/
def FS.content (fs : FS) (path : String) : Option String :=
  match fs.blocked path with
  | some _ => none
  | none => fs.files.lookup (FS.key path)

/-- The file system with the regular file at `path` holding `data`. -/
def FS.store (fs : FS) (path : String) (data : String) : FS :=
  { fs with files := (FS.key path, data) :: fs.files.filter (fun e => !(e.1 == FS.key path)) }

/-- The world after one more system call. -/
def World.log (w : World) (e : Event) : World :=
  { w with trace := w.trace ++ [e] }

/-- An open file, Go `*os.File`: the path it was opened on and whether that is a
regular file or a directory. -/
inductive File where
  | regular (path : String)
  | directory (path : String)
deriving DecidableEq

/-- Path an open file was opened on. -/
def File.path : File → String
  | .regular path => path
  | .directory path => path

/-- Go: an `io.Reader`, as the bytes it yields and the error that ends the stream
(`none` for a clean end of file). -/
structure Reader where
  data : String
  err : Option Error

/-- Go: an `io.Writer`, as the name of what it writes to, the bytes it has accepted
so far and the number of bytes it still accepts (`none`: no limit). -/
structure Writer where
  name : String
  data : String
  room : Option Nat
deriving DecidableEq

/-- Go: `w.Write(p)`. When the writer runs out of room only the bytes that fit
are taken and an error is returned. -/
def Writer.Write (wr : Writer) (p : String) : Nat × Option Error × Writer :=
  match wr.room with
  | none => (p.length, none, { wr with data := wr.data ++ p })
  | some room =>
    if p.length ≤ room then
      (p.length, none, { wr with data := wr.data ++ p, room := some (room - p.length) })
    else
      (room, some (.PathError "write" wr.name .ENOSPC),
        { wr with data := wr.data ++ String.mk (p.data.take room), room := some 0 })

/-- Go: `os.Open(name)`. -/
def os.Open (w : World) (name : String) : Except Error File × World :=
  let w := w.log (.Open name)
  if name ∈ w.fs.denied then (.error (.PathError "open" name .EACCES), w)
  else
    match w.fs.blocked name with
    | some errno => (.error (.PathError "open" name errno), w)
    | none =>
      if (w.fs.content name).isSome then (.ok (.regular name), w)
      else if w.fs.isDir (FS.key name) then (.ok (.directory name), w)
      else (.error (.PathError "open" name .ENOENT), w)

/-- The open file `f` as an `io.Reader`: a regular file yields its content, reading
a directory fails. -/
def World.reader (w : World) : File → Reader
  | .regular path => { data := (w.fs.content path).getD "", err := none }
  | .directory path => { data := "", err := some (.PathError "read" path .EISDIR) }

/-- Go: `ioutil.ReadAll(r)`. -/
def ioutil.ReadAll (r : Reader) : String × Option Error :=
  (r.data, r.err)

/-- Go: `os.Stat(name)`, the error result only. -/
def os.Stat (w : World) (name : String) : Option Error × World :=
  let w := w.log (.Stat name)
  match w.fs.blocked name with
  | some errno => (some (.PathError "stat" name errno), w)
  | none =>
    if (w.fs.content name).isSome || w.fs.isDir (FS.key name) then (none, w)
    else (some (.PathError "stat" name .ENOENT), w)

/-- Go: `os.Mkdir(name, perm)` on the file system: the directories on the way must be
there, the place itself must be free. -/
def FS.Mkdir (fs : FS) (name : String) : Option Errno × FS :=
  if name ∈ fs.denied then (some .EACCES, fs)
  else
    match fs.stopped name with
    | some errno => (some errno, fs)
    | none =>
      if (fs.files.lookup (FS.key name)).isSome || fs.isDir (FS.key name) then
        (some .EEXIST, fs)
      else (none, { fs with dirs := FS.key name :: fs.dirs })

/-- A path without its trailing slashes; the characters come last one first. -/
def FS.dropSlashes : List Char → List Char
  | [] => []
  | c :: cs => if c = '/' then FS.dropSlashes cs else c :: cs

/-- Go: `os.MkdirAll(path, perm)` on the file system. If the path is a directory
already there is nothing to do, and a regular file in its place is an error;
otherwise the path without its last element is made first, when it has more than one
character, and then `os.Mkdir` makes the path, whose error does not count when the
path has become a directory. `fuel` bounds the recursion; the length of the path is
enough. -/
def FS.MkdirAll : Nat → FS → String → Option Error × FS
  | 0, fs, path => (some (.PathError "mkdir" path .ENOENT), fs)
  | fuel + 1, fs, path =>
    if fs.blocked path = none && fs.isDir (FS.key path) then (none, fs)
    else if (fs.content path).isSome then (some (.PathError "mkdir" path .ENOTDIR), fs)
    else
      let stripped := FS.dropSlashes path.data.reverse
      let above := (stripped.dropWhile (fun c => c != '/')).drop 1
      let r := if 1 ≤ above.length then FS.MkdirAll fuel fs (String.mk above.reverse)
        else (none, fs)
      match r with
      | (some err, fs) => (some err, fs)
      | (none, fs) =>
        match fs.Mkdir path with
        | (none, fs) => (none, fs)
        | (some errno, fs) =>
          if fs.blocked path = none && fs.isDir (FS.key path) then (none, fs)
          else (some (.PathError "mkdir" path errno), fs)

/-- Go: `os.MkdirAll(path, os.ModePerm)`. -/
def os.MkdirAll (w : World) (path : String) : Option Error × World :=
  let w := w.log (.MkdirAll path)
  match FS.MkdirAll (path.length + 1) w.fs path with
  | (err, fs) => (err, { w with fs := fs })

/-- Go: `os.Create(name)`: the file is created, or truncated if it exists; the
directories on the way must be there. -/
def os.Create (w : World) (name : String) : Except Error File × World :=
  let w := w.log (.Create name)
  if name ∈ w.fs.denied then (.error (.PathError "open" name .EACCES), w)
  else
    match w.fs.blocked name with
    | some errno => (.error (.PathError "open" name errno), w)
    | none =>
      if w.fs.isDir (FS.key name) || FS.dirOnly name then
        (.error (.PathError "open" name .EISDIR), w)
      else (.ok (.regular name), { w with fs := w.fs.store name "" })

/-- An `io.Writer` on the file at `path`, just created. -/
def FS.writer (fs : FS) (path : String) : Writer :=
  { name := path, data := "", room := fs.full.lookup (FS.key path) }

/-- The file `f`, just created, as an `io.Writer`. -/
def World.writer (w : World) (f : File) : Writer :=
  w.fs.writer f.path

/-- The world after the bytes a writer on `f` accepted have reached the file. -/
def World.written (w : World) (f : File) (wr : Writer) : World :=
  { w with fs := w.fs.store f.path wr.data, trace := w.trace ++ [.Write f.path wr.data] }

/-- Go: `f.Close()`. -/
def File.Close (w : World) (f : File) : World :=
  w.log (.Close f.path)

/-- Go: `os.LookupEnv(key)`, in the environment `env`. -/
def os.LookupEnv (env : List (String × String)) (key : String) : String × Bool :=
  match env.lookup key with
  | some v => (v, true)
  | none => ("", false)

/-! ## Packages strings and fmt -/

/-- Go: `strings.Replace` on characters, for a non-empty `old`: the occurrences of
`old` are replaced from left to right, without overlap, at most `limit` of them
(`none`: all). `fuel` bounds the number of steps; the length of the input is enough. -/
def strings.replaceN (old new : List Char) : Nat → Option Nat → List Char → List Char
  | 0, _, s => s
  | _ + 1, _, [] => []
  | _ + 1, some 0, s => s
  | fuel + 1, limit, c :: cs =>
    if old.isPrefixOf (c :: cs) then
      new ++ strings.replaceN old new fuel (limit.map (fun k => k - 1)) ((c :: cs).drop old.length)
    else
      c :: strings.replaceN old new fuel limit cs

/-- Go: `strings.Replace(s, old, new, n)`; a negative `n` sets no limit. The source
calls it with a one-character `old`; an empty `old` is not modelled and leaves `s`
as it is. -/
def strings.Replace (s old new : String) (n : Int) : String :=
  if old.data.isEmpty then s
  else
    String.mk (strings.replaceN old.data new.data s.length
      (if n < 0 then none else some n.toNat) s.data)

/-- Go: `fmt.Sprintf` on the characters of a format whose only verb is `%s`. -/
def fmt.sprintf : List Char → List String → List Char
  | [], _ => []
  | '%' :: 's' :: rest, a :: args => a.data ++ fmt.sprintf rest args
  | '%' :: 's' :: rest, [] => "%!s(MISSING)".data ++ fmt.sprintf rest []
  | c :: rest, args => c :: fmt.sprintf rest args

/-- Go: `fmt.Sprintf(format, a...)` for string arguments and the verb `%s`. -/
def fmt.Sprintf (format : String) (a : List String) : String :=
  String.mk (fmt.sprintf format.data a)

/-! ## util.go -/

/-- Go: interface `TestingT`, as the state of the test it stands for: its name,
whether it has failed, and the errors reported through `Error` and `Fatal`. -/
structure TestingT where
  name : String
  failed : Bool
  errors : List Error
  fatals : List Error

/-- Go: `t.Name()`. -/
def TestingT.Name (t : TestingT) : String := t.name

/-- Go: `t.Failed()`. -/
def TestingT.Failed (t : TestingT) : Bool := t.failed

/-- Go: `t.Helper()`. -/
def TestingT.Helper (t : TestingT) : TestingT := t

/-- Go: `t.Error(err)`. -/
def TestingT.Error (t : TestingT) (err : cupaloy.Error) : TestingT :=
  { t with failed := true, errors := t.errors ++ [err] }

/-- Go: `t.Fatal(err)`. -/
def TestingT.Fatal (t : TestingT) (err : cupaloy.Error) : TestingT :=
  { t with failed := true, fatals := t.fatals ++ [err] }

/-- Go: `getNameOfCaller()`. `fullPath` is `runtime.FuncForPC(pc).Name()` for the
frame `runtime.Caller(2)` names, the caller of the exported function. -/
def getNameOfCaller (L : Lib) (fullPath : String) : String :=
  let packageFunctionName := L.Base fullPath
  strings.Replace packageFunctionName "." "-" (-1)

/-- Go: `envVariableSet(envVariable)`, in the environment `env`. -/
def envVariableSet (env : List (String × String)) (envVariable : String) : Bool :=
  (os.LookupEnv env envVariable).2

/-- The `spew.ConfigState` that `takeV1Snapshot` and `NewSpewSnapshotter` both build. -/
def spewConfig : ConfigState :=
  { Indent := "  ", SortKeys := true, DisablePointerAddresses := true,
    DisableCapacities := true, SpewKeys := true }

/-- Go: `takeV1Snapshot(i...)`, the legacy format where all items were spewed. -/
def takeV1Snapshot (L : Lib) (i : List Value) : String :=
  L.Sdump spewConfig i

/-! ## config.go -/

/-- Go: `Config`. The update predicate `shouldUpdate func() bool` reads the file
system and the environment it is called in. -/
structure Config where
  shouldUpdate : FS → List (String × String) → Bool
  subDirName : String
  failOnUpdate : Bool
  createNewAutomatically : Bool
  fatalOnMismatch : Bool
  snapshotFileExtension : String

/-- Go: `Configurator`, `func(*Config)`. -/
abbrev Configurator := Config → Config

/-- Go: `EnvVariableName(name)`. -/
def EnvVariableName (name : String) : Configurator :=
  fun c => { c with shouldUpdate := fun _ env => envVariableSet env name }

/-- Go: `ShouldUpdate(f)`. -/
def ShouldUpdate (f : FS → List (String × String) → Bool) : Configurator :=
  fun c => { c with shouldUpdate := f }

/-- Go: `SnapshotSubdirectory(name)`. -/
def SnapshotSubdirectory (name : String) : Configurator :=
  fun c => { c with subDirName := name }

/-- Go: `FailOnUpdate(failOnUpdate)`. -/
def FailOnUpdate (failOnUpdate : Bool) : Configurator :=
  fun c => { c with failOnUpdate := failOnUpdate }

/-- Go: `CreateNewAutomatically(createNewAutomatically)`. -/
def CreateNewAutomatically (createNewAutomatically : Bool) : Configurator :=
  fun c => { c with createNewAutomatically := createNewAutomatically }

/-- Go: `FatalOnMismatch(fatalOnMismatch)`. -/
def FatalOnMismatch (fatalOnMismatch : Bool) : Configurator :=
  fun c => { c with fatalOnMismatch := fatalOnMismatch }

/-- Go: `SnapshotFileExtension(snapshotFileExtension)`. -/
def SnapshotFileExtension (snapshotFileExtension : String) : Configurator :=
  fun c => { c with snapshotFileExtension := snapshotFileExtension }

/-- Go: `(c *Config) clone()`. -/
def Config.clone (c : Config) : Config :=
  { shouldUpdate := c.shouldUpdate,
    subDirName := c.subDirName,
    failOnUpdate := c.failOnUpdate,
    createNewAutomatically := c.createNewAutomatically,
    fatalOnMismatch := c.fatalOnMismatch,
    snapshotFileExtension := c.snapshotFileExtension }

/-- Go: `(c *Config) WithOptions(configurators...)`. -/
def Config.WithOptions (c : Config) (configurators : List Configurator) : Config :=
  configurators.foldl (fun clonedConfig configurator => configurator clonedConfig) c.clone

/-- Go: `&Config{}`, every field at its zero value (a nil `shouldUpdate` is never
called before `EnvVariableName` replaces it). -/
def Config.zero : Config :=
  { shouldUpdate := fun _ _ => false, subDirName := "", failOnUpdate := false,
    createNewAutomatically := false, fatalOnMismatch := false, snapshotFileExtension := "" }

/-- Go: `NewDefaultConfig()`. -/
def NewDefaultConfig : Config :=
  Config.zero.WithOptions [
    SnapshotSubdirectory ".snapshots",
    EnvVariableName "UPDATE_SNAPSHOTS",
    FailOnUpdate true,
    CreateNewAutomatically true,
    FatalOnMismatch false,
    SnapshotFileExtension ""]

/-- Go: `(c *Config) snapshotFilePath(testName)` (util.go). -/
def Config.snapshotFilePath (L : Lib) (c : Config) (testName : String) : String :=
  L.Join c.subDirName (testName ++ c.snapshotFileExtension)

/-! ## snapshotter.go, snapshotter_spew.go -/

/-- Go: interface `Snapshotter`. -/
structure Snapshotter where
  Snapshot : List Value → Snap × Option Error
  Diff : Snap → Snap → String
  ReadFrom : Reader → Snap × Option Error
  WriteTo : Writer → Snap → Int × Option Error × Writer

/-- Go: the loop body of `(s *SpewSnapshotter) Snapshot`: what one target adds to the
buffer. -/
def SpewSnapshotter.target (L : Lib) (c : ConfigState) : Value → String
  | .str typedTarget => typedTarget ++ "\n"
  | .bytes typedTarget => typedTarget ++ "\n"
  | typedTarget => L.Fdump c [typedTarget]

/-- Go: the buffer `(s *SpewSnapshotter) Snapshot` has filled when its loop over the
targets ends. -/
def SpewSnapshotter.buffer (L : Lib) (c : ConfigState) (i : List Value) : String :=
  i.foldl (fun snapshot target => snapshot ++ SpewSnapshotter.target L c target) ""

/-- Go: `(s *SpewSnapshotter) Snapshot(i...)`. -/
def SpewSnapshotter.Snapshot (L : Lib) (c : ConfigState) (i : List Value) :
    Snap × Option Error :=
  let snapshot := SpewSnapshotter.buffer L c i
  (.str snapshot, none)

/-- Go: `io.Copy(writer, strings.NewReader(s))`: the reader writes itself with one
`Write`, and with none at all when it is empty. -/
def io.Copy (writer : Writer) (s : String) : Int × Option Error × Writer :=
  if s.length = 0 then (0, none, writer)
  else
    let r := writer.Write s
    ((r.1 : Int), r.2.1, r.2.2)

/-- Text of the run-time panic of a failed type assertion `x.(string)`. The engine
hands the spew snapshotter only strings and nil, so it never gets there. -/
def assertionPanic : String := "panic: interface conversion: interface \x7b\x7d is not string"

/-- Go: `(s *SpewSnapshotter) WriteTo(writer, target)`. -/
def SpewSnapshotter.WriteTo (writer : Writer) (target : Snap) : Int × Option Error × Writer :=
  match target with
  | .str s => io.Copy writer s
  | _ => (0, some (.New assertionPanic), writer)

/-- Go: `(s *SpewSnapshotter) ReadFrom(reader)`. -/
def SpewSnapshotter.ReadFrom (reader : Reader) : Snap × Option Error :=
  match ioutil.ReadAll reader with
  | (_, some err) => (.nil, some err)
  | (snap, none) => (.str snap, none)

/-- Go: `(s *SpewSnapshotter) Diff(previous, current)`. -/
def SpewSnapshotter.Diff (L : Lib) (previous current : Snap) : String :=
  let previous := if previous.isNil then Value.str "" else previous
  let current := if current.isNil then Value.str "" else current
  match previous, current with
  | .str previous, .str current =>
    L.GetUnifiedDiffString
      { A := L.SplitLines previous,
        B := L.SplitLines current,
        FromFile := "Previous",
        FromDate := "",
        ToFile := "Current",
        ToDate := "",
        Context := 1 }
  | _, _ => assertionPanic

/-- Go: `NewSpewSnapshotter()`, with the methods of `*SpewSnapshotter`. -/
def NewSpewSnapshotter (L : Lib) : Snapshotter :=
  { Snapshot := SpewSnapshotter.Snapshot L spewConfig,
    Diff := SpewSnapshotter.Diff L,
    ReadFrom := SpewSnapshotter.ReadFrom,
    WriteTo := SpewSnapshotter.WriteTo }

/-! ## go-cmp, as far as snapshotter_gocmp.go depends on it -/

/-- The spacing of the float64 values around `q`: with `2^e ≤ |q| < 2^(e+1)` it is
`2^(e-52)`, for 53 bits of precision, and `2^(-1074)` below the normal range. -/
def F64.quantum (q : ℚ) : ℚ :=
  (2 : ℚ) ^ (max (Int.log 2 |q|) (-1022) - 52)

/-- The integer nearest to `r`, the even one of the two when `r` is half-way. -/
def F64.nearest (r : ℚ) : ℤ :=
  let f := ⌊r⌋
  if r - f < 1 / 2 then f
  else if 1 / 2 < r - f then f + 1
  else if f % 2 = 0 then f else f + 1

/-- The float64 result of an operation whose exact result is `q`: the float64 value
nearest to `q`, ties to even, and `none` for an infinity when that is out of range. -/
def F64.round (q : ℚ) : Option ℚ :=
  let v := (F64.nearest (q / F64.quantum q) : ℚ) * F64.quantum q
  if |v| < 2 ^ 1024 then some v else none

/-- Go: a numeric constant used as a float64. -/
def F64.lit (q : ℚ) : ℚ :=
  (F64.round q).getD 0

/-- Go: `approximator.compareF64` of go-cmp's cmpopts, the comparer that
`cmpopts.EquateApprox(fraction, margin)` installs for float64 values,
`relMarg := a.frac * math.Min(math.Abs(x), math.Abs(y))` and
`math.Abs(x-y) <= math.Max(a.marg, relMarg)`, the product and the difference being
float64 operations. An infinite `relMarg` is at least everything, and an infinite
difference is at most nothing finite. -/
def cmpopts.compareF64 (fraction margin x y : ℚ) : Bool :=
  match F64.round (fraction * min |x| |y|) with
  | none => true
  | some relMarg =>
    match F64.round (x - y) with
    | none => false
    | some d => decide (|d| ≤ max margin relMarg)

/-- How `cmp.Equal` compares two float64 values under the given options: with the
comparer of the first `EquateApprox` option, with `==` when there is none. -/
def cmp.equalFloat : List CmpOption → ℚ → ℚ → Bool
  | [], x, y => decide (x = y)
  | .EquateApprox fraction margin :: _, x, y => cmpopts.compareF64 fraction margin x y

mutual
/-- Go: `cmp.Equal(x, y, opts...)` on the values of `Value`: values of different
dynamic types are unequal, slices and maps are compared element by element, float64
values by the comparer of the options, everything else by `==`. -/
def cmp.Equal (opts : List CmpOption) : Value → Value → Bool
  | .nil, .nil => true
  | .str x, .str y => decide (x = y)
  | .bytes x, .bytes y => decide (x = y)
  | .int x, .int y => decide (x = y)
  | .float x, .float y => cmp.equalFloat opts x y
  | .bool x, .bool y => decide (x = y)
  | .slice xs, .slice ys => cmp.equalSlice opts xs ys
  | .map xs, .map ys => cmp.equalMap opts xs ys
  | _, _ => false
/-- Element-wise `cmp.Equal` of two slices. -/
def cmp.equalSlice (opts : List CmpOption) : List Value → List Value → Bool
  | [], [] => true
  | x :: xs, y :: ys => cmp.Equal opts x y && cmp.equalSlice opts xs ys
  | _, _ => false
/-- Entry-wise `cmp.Equal` of two maps, entries in key order. -/
def cmp.equalMap (opts : List CmpOption) :
    List (String × Value) → List (String × Value) → Bool
  | [], [] => true
  | (k, x) :: xs, (l, y) :: ys => decide (k = l) && cmp.Equal opts x y && cmp.equalMap opts xs ys
  | _, _ => false
end

/-- Go: `cmp.Diff(x, y, opts...)`: the empty string when `cmp.Equal` holds, a report
of the differences otherwise. -/
def cmp.Diff (L : Lib) (x y : Value) (opts : List CmpOption) : String :=
  if cmp.Equal opts x y then "" else L.Report x y opts

/-! ## snapshotter_gocmp.go -/

/-- Go: `GocmpSnapshotter`. -/
structure GocmpSnapshotter where
  GocmpOptions : List CmpOption

/-- Go: `NewGocmpSnapshotter()`. -/
def NewGocmpSnapshotter : GocmpSnapshotter :=
  { GocmpOptions := [.EquateApprox (F64.lit 0.00000000001) 0] }

/-- Go: `(s *GocmpSnapshotter) Snapshot(i...)`. -/
def GocmpSnapshotter.Snapshot (i : List Value) : Snap × Option Error :=
  let snap := i.foldl (fun snap obj => snap ++ [obj]) []
  (.slice snap, none)

/-- Go: `(s *GocmpSnapshotter) WriteTo(writer, target)`: an encoder with
`SetIndent("", "\t")` encodes the target and hands the text to the writer in one
`Write`; nothing is written when encoding fails. -/
def GocmpSnapshotter.WriteTo (L : Lib) (writer : Writer) (target : Snap) :
    Int × Option Error × Writer :=
  match L.Encode "" "\t" target with
  | (_, some err) => (0, some err, writer)
  | (text, none) =>
    let r := writer.Write text
    (0, r.2.1, r.2.2)

/-- Go: `(s *GocmpSnapshotter) ReadFrom(reader)`: `result` starts as the empty slice
and is decoded into; a reader that fails has yielded no bytes. -/
def GocmpSnapshotter.ReadFrom (L : Lib) (reader : Reader) : Snap × Option Error :=
  let result := Value.slice []
  match reader.err with
  | some err => (result, some err)
  | none => L.Decode reader.data

/-- Go: `(s *GocmpSnapshotter) Diff(previous, current)`. -/
def GocmpSnapshotter.Diff (L : Lib) (s : GocmpSnapshotter) (previous current : Snap) : String :=
  cmp.Diff L previous current s.GocmpOptions

/-- The methods of a `*GocmpSnapshotter` as a `Snapshotter`. -/
def GocmpSnapshotter.toSnapshotter (L : Lib) (s : GocmpSnapshotter) : Snapshotter :=
  { Snapshot := GocmpSnapshotter.Snapshot,
    Diff := s.Diff L,
    ReadFrom := GocmpSnapshotter.ReadFrom L,
    WriteTo := GocmpSnapshotter.WriteTo L }

/-! ## cupaloy.go -/

/-- Go: `Cupaloy`, a `*Config` and a `Snapshotter` embedded in one struct. -/
structure Cupaloy extends Config where
  Snapshotter : Snapshotter

/-- Go: `New(configurators...)`. -/
def New (L : Lib) (configurators : List Configurator) : Cupaloy :=
  { toConfig := NewDefaultConfig.WithOptions configurators,
    Snapshotter := NewSpewSnapshotter L }

/-- Go: `(c *Cupaloy) WithOptions(configurators...)`. -/
def Cupaloy.WithOptions (L : Lib) (c : Cupaloy) (configurators : List Configurator) : Cupaloy :=
  { toConfig := c.toConfig.WithOptions configurators,
    Snapshotter := NewSpewSnapshotter L }

/-- Go: `(c *Cupaloy) updateSnapshot(snapshotName, prevSnapshot, snapshot)`. -/
def Cupaloy.updateSnapshot (L : Lib) (c : Cupaloy) (w : World) (snapshotName : String)
    (prevSnapshot snapshot : Snap) : Option Error × World :=
  -- check that subdirectory exists before writing snapshot
  match os.MkdirAll w c.subDirName with
  | (some _, w) => (some (.New "could not create snapshots directory"), w)
  | (none, w) =>
    let snapshotFile := c.snapshotFilePath L snapshotName
    let (err, w) := os.Stat w snapshotFile
    let isNewSnapshot := os.IsNotExist err
    match os.Create w snapshotFile with
    | (.error err, w) => (some err, w)
    | (.ok f, w) =>
      -- the results of WriteTo are dropped
      let w := w.written f (c.Snapshotter.WriteTo (w.writer f) snapshot).2.2
      if !c.failOnUpdate then
        (none, f.Close w)
      else
        let snapshotDiff := c.Snapshotter.Diff prevSnapshot snapshot
        if isNewSnapshot then
          (some (.ErrSnapshotCreated snapshotName snapshot), f.Close w)
        else
          (some (.ErrSnapshotUpdated snapshotName snapshotDiff), f.Close w)

/-- Go: `(c *Cupaloy) snapshot(snapshotName, i...)`. -/
def Cupaloy.snapshot (L : Lib) (c : Cupaloy) (w : World) (snapshotName : String)
    (i : List Value) : Option Error × World :=
  match c.Snapshotter.Snapshot i with
  | (_, some err) => (some err, w)
  | (snapshot, none) =>
    match os.Open w (c.snapshotFilePath L snapshotName) with
    | (.error err, w) =>
      if os.IsNotExist (some err) then
        if c.createNewAutomatically then
          c.updateSnapshot L w snapshotName .nil snapshot
        else
          (some (.ErrNoSnapshot snapshotName), w)
      else
        (some err, w)
    | (.ok buf, w) =>
      match c.Snapshotter.ReadFrom (w.reader buf) with
      | (_, some err) => (some err, w)
      | (prevSnapshot, none) =>
        let diff := c.Snapshotter.Diff prevSnapshot snapshot
        if diff = "" || Value.eqString (takeV1Snapshot L i) prevSnapshot then
          -- previous snapshot matches current value
          (none, w)
        else
          let w := w.log .ShouldUpdate
          if c.shouldUpdate w.fs w.env then
            -- updates snapshot to current value and upgrades snapshot format
            c.updateSnapshot L w snapshotName prevSnapshot snapshot
          else
            (some (.ErrSnapshotMismatch diff), w)

/-- Go: `(c *Cupaloy) Snapshot(i...)`, called from the function `fullPath`. -/
def Cupaloy.Snapshot (L : Lib) (c : Cupaloy) (w : World) (fullPath : String)
    (i : List Value) : Option Error × World :=
  c.snapshot L w (getNameOfCaller L fullPath) i

/-- Go: `(c *Cupaloy) SnapshotMulti(snapshotID, i...)`, called from the function
`fullPath`. -/
def Cupaloy.SnapshotMulti (L : Lib) (c : Cupaloy) (w : World) (fullPath : String)
    (snapshotID : String) (i : List Value) : Option Error × World :=
  let snapshotName := fmt.Sprintf "%s-%s" [getNameOfCaller L fullPath, snapshotID]
  c.snapshot L w snapshotName i

/-- Go: `(c *Cupaloy) SnapshotT(t, i...)`. -/
def Cupaloy.SnapshotT (L : Lib) (c : Cupaloy) (w : World) (t : TestingT)
    (i : List Value) : TestingT × World :=
  let t := t.Helper
  if t.Failed then (t, w)
  else
    let snapshotName := strings.Replace t.Name "/" "-" (-1)
    match c.snapshot L w snapshotName i with
    | (some err, w) =>
      if c.fatalOnMismatch then (t.Fatal err, w)
      else (t.Error err, w)
    | (none, w) => (t, w)

/-- Go: `var Global = New()`, as long as nobody assigns to it. -/
def Global (L : Lib) : Cupaloy := New L []

/-- Go: `Snapshot(i...)`, called from the function `fullPath`. -/
def Snapshot (L : Lib) (w : World) (fullPath : String) (i : List Value) :
    Option Error × World :=
  (Global L).snapshot L w (getNameOfCaller L fullPath) i

/-- Go: `SnapshotMulti(snapshotID, i...)`, called from the function `fullPath`. -/
def SnapshotMulti (L : Lib) (w : World) (fullPath : String) (snapshotID : String)
    (i : List Value) : Option Error × World :=
  let snapshotName := fmt.Sprintf "%s-%s" [getNameOfCaller L fullPath, snapshotID]
  (Global L).snapshot L w snapshotName i

/-- Go: `SnapshotT(t, i...)`. -/
def SnapshotT (L : Lib) (w : World) (t : TestingT) (i : List Value) : TestingT × World :=
  let t := t.Helper
  (Global L).SnapshotT L w t i

/-! ## A sample of the third-party packages

`sample.lib` is a small instance of `Lib` on which the concrete scenarios below are
run. It follows the Go packages on the inputs of those scenarios: spew on nil,
strings, integers and booleans; go-difflib on inputs whose changed lines form one
block; encoding/json on arrays of null, booleans, numbers without exponent, strings
without escapes, and nested arrays; path/filepath on slash-separated paths. Where it
does not follow them it says so in its output. -/

namespace sample

/-- The double quote. -/
def dquote : Char := Char.ofNat 34

/-- The backslash. -/
def backslash : Char := Char.ofNat 92

/-- Go: `strconv.Quote`, for text of printable characters. -/
def quote (s : String) : String :=
  let esc : Char → List Char := fun c =>
    if c = dquote then [backslash, dquote]
    else if c = backslash then [backslash, backslash]
    else if c = '\n' then [backslash, 'n']
    else if c = '\t' then [backslash, 't']
    else [c]
  String.mk (dquote :: (s.data.map esc).flatten ++ [dquote])

/-- What spew dumps for one value (`Fdump` with one argument). -/
def dump : Value → String
  | .nil => "(interface \x7b\x7d) <nil>\n"
  | .str s => "(string) (len=" ++ toString s.utf8ByteSize ++ ") " ++ quote s ++ "\n"
  | .int n => "(int) " ++ toString n ++ "\n"
  | .bool b => "(bool) " ++ toString b ++ "\n"
  | .bytes _ => "([]uint8) <not in the sample>\n"
  | .float _ => "(float64) <not in the sample>\n"
  | .slice _ => "([]interface \x7b\x7d) <not in the sample>\n"
  | .map _ => "(map[string]interface \x7b\x7d) <not in the sample>\n"

/-- Sample of `Fdump` and `Sdump`: the dumps of the arguments, one after the other. -/
def Sdump (_ : ConfigState) (a : List Value) : String :=
  String.join (a.map dump)

/-- Go: `strings.SplitAfter(s, "\n")` on characters; `cur` holds the piece being
read, last character first. -/
def splitAfter (cur : List Char) : List Char → List String
  | [] => [String.mk cur.reverse]
  | c :: cs =>
    if c = '\n' then String.mk (c :: cur).reverse :: splitAfter [] cs
    else splitAfter (c :: cur) cs

/-- A list of lines with a newline appended to the last one. -/
def appendToLast : List String → List String
  | [] => []
  | [l] => [l ++ "\n"]
  | l :: ls => l :: appendToLast ls

/-- Go: `difflib.SplitLines(s)`. -/
def SplitLines (s : String) : List String :=
  appendToLast (splitAfter [] s.data)

/-- Number of leading lines two lists share. -/
def shared : List String → List String → Nat
  | x :: xs, y :: ys => if x = y then shared xs ys + 1 else 0
  | _, _ => 0

/-- Go: `formatRangeUnified(start, stop)` of go-difflib. -/
def formatRangeUnified (start stop : Nat) : String :=
  let beginning := start + 1
  let length := stop - start
  if length = 1 then toString beginning
  else if length = 0 then toString (beginning - 1) ++ "," ++ toString length
  else toString beginning ++ "," ++ toString length

/-- The lines `ls[lo:hi]`, each after the marker `mark`. -/
def marked (mark : String) (ls : List String) (lo hi : Nat) : String :=
  String.join (((ls.take hi).drop lo).map (fun l => mark ++ l))

/-- Sample of `difflib.GetUnifiedDiffString`: nothing for equal inputs; otherwise the
lines between the shared head and the shared tail as one hunk, with `Context` lines
around it. -/
def GetUnifiedDiffString (d : UnifiedDiff) : String :=
  if d.A = d.B then ""
  else
    let p := shared d.A d.B
    let q := shared (d.A.drop p).reverse (d.B.drop p).reverse
    let n := d.Context.toNat
    let i1 := p - min p n
    let i2 := d.A.length - q + min q n
    let j2 := d.B.length - q + min q n
    "--- " ++ d.FromFile ++ "\n+++ " ++ d.ToFile ++ "\n"
      ++ "@@ -" ++ formatRangeUnified i1 i2 ++ " +" ++ formatRangeUnified i1 j2 ++ " @@\n"
      ++ marked " " d.A i1 p
      ++ marked "-" d.A p (d.A.length - q)
      ++ marked "+" d.B p (d.B.length - q)
      ++ marked " " d.A (d.A.length - q) i2

/-- Splits a path at its slashes. -/
def components (cur : List Char) : List Char → List String
  | [] => [String.mk cur.reverse]
  | c :: cs =>
    if c = '/' then String.mk cur.reverse :: components [] cs
    else components (c :: cur) cs

/-- Go: the elements `path.Clean` keeps, last one first: empty and `.` elements go,
`..` takes the element before it with it, or stays if there is none to take and the
path is not rooted. -/
def cleanInto (rooted : Bool) : List String → List String → List String
  | acc, [] => acc
  | acc, e :: es =>
    if e = "" || e = "." then cleanInto rooted acc es
    else if e = ".." then
      match acc with
      | [] => if rooted then cleanInto rooted [] es else cleanInto rooted [".."] es
      | a :: rest =>
        if a = ".." then cleanInto rooted (".." :: acc) es else cleanInto rooted rest es
    else cleanInto rooted (e :: acc) es

/-- Go: `filepath.Clean(path)`, slash-separated. -/
def Clean (path : String) : String :=
  let rooted := path.data.head? = some '/'
  let kept := (cleanInto rooted [] (components [] path.data)).reverse
  let body := "/".intercalate kept
  if rooted then "/" ++ body
  else if body = "" then "."
  else body

/-- Go: `filepath.Join(a, b)`: empty elements are ignored, the rest is joined with a
slash and cleaned. -/
def Join (a b : String) : String :=
  if a = "" && b = "" then ""
  else if a = "" then Clean b
  else if b = "" then Clean a
  else Clean (a ++ "/" ++ b)

/-- A path without its trailing slashes; the characters come last one first. -/
def dropSlashes : List Char → List Char
  | [] => []
  | c :: cs => if c = '/' then dropSlashes cs else c :: cs

/-- Go: `filepath.Base(path)`, slash-separated. -/
def Base (path : String) : String :=
  if path = "" then "."
  else
    let stripped := dropSlashes path.data.reverse
    let last := (stripped.takeWhile (fun c => c != '/')).reverse
    if last.isEmpty then "/" else String.mk last

/-- Error of the sample for input it does not cover. -/
def notCovered : Error := .Lib "json" "not covered by the sample"

/-- Go: the `SyntaxError` of encoding/json for a character that cannot start a value. -/
def invalidCharacter (c : Char) : Error :=
  .Lib "json" ("invalid character " ++ String.mk [Char.ofNat 39, c, Char.ofNat 39]
    ++ " looking for beginning of value")

/-- Input without its leading JSON white space. -/
def skipSpace : List Char → List Char
  | [] => []
  | c :: cs => if c = ' ' || c = '\n' || c = '\t' || c = '\r' then skipSpace cs else c :: cs

/-- Value of a run of decimal digits read after `acc`, with what follows the run and
the number of digits read. -/
def digits (acc : Nat) (n : Nat) : List Char → Nat × Nat × List Char
  | [] => (acc, n, [])
  | c :: cs =>
    if c.isDigit then digits (acc * 10 + (c.toNat - 48)) (n + 1) cs
    else (acc, n, c :: cs)

/-- A JSON string body up to its closing quote, read after `acc` (last character
first), with what follows the quote. -/
def stringBody (acc : List Char) : List Char → Except Error (String × List Char)
  | [] => .error (.Lib "json" "unexpected EOF")
  | c :: cs =>
    if c = dquote then .ok (String.mk acc.reverse, cs)
    else if c = backslash || c.toNat < 32 then .error notCovered
    else stringBody (c :: acc) cs

/-- A JSON number without exponent, as encoding/json decodes it into an
`interface{}`: a float64. -/
def number (cs : List Char) : Except Error (Value × List Char) :=
  let neg := cs.head? = some '-'
  let body := if neg then cs.drop 1 else cs
  let (whole, n, rest) := digits 0 0 body
  if n = 0 || (body.head? = some '0' && 1 < n) then .error notCovered
  else
    match rest with
    | '.' :: more =>
      let (frac, k, rest) := digits 0 0 more
      if k = 0 || rest.head? = some 'e' || rest.head? = some 'E' then .error notCovered
      else
        let q : ℚ := (whole : ℚ) + (frac : ℚ) / (10 : ℚ) ^ k
        .ok (.float (F64.lit (if neg then -q else q)), rest)
    | _ =>
      if rest.head? = some 'e' || rest.head? = some 'E' then .error notCovered
      else .ok (.float (F64.lit (if neg then -(whole : ℚ) else (whole : ℚ))), rest)

mutual
/-- One JSON value at the head of the input, with what follows it. `fuel` bounds the
nesting depth and the number of elements. -/
def value : Nat → List Char → Except Error (Value × List Char)
  | 0, _ => .error notCovered
  | fuel + 1, cs =>
    match skipSpace cs with
    | [] => .error (.Lib "io" "unexpected EOF")
    | 'n' :: 'u' :: 'l' :: 'l' :: rest => .ok (.nil, rest)
    | 't' :: 'r' :: 'u' :: 'e' :: rest => .ok (.bool true, rest)
    | 'f' :: 'a' :: 'l' :: 's' :: 'e' :: rest => .ok (.bool false, rest)
    | '[' :: rest =>
      match skipSpace rest with
      | ']' :: rest => .ok (.slice [], rest)
      | _ =>
        match elements fuel rest with
        | .ok (xs, rest) => .ok (.slice xs, rest)
        | .error e => .error e
    | c :: rest =>
      if c = dquote then
        match stringBody [] rest with
        | .ok (s, rest) => .ok (.str s, rest)
        | .error e => .error e
      else if c = '-' || c.isDigit then number (c :: rest)
      else if c = Char.ofNat 123 || c = 'n' || c = 't' || c = 'f' then .error notCovered
      else .error (invalidCharacter c)
/-- The elements of a JSON array after its opening bracket, up to the closing one. -/
def elements : Nat → List Char → Except Error (List Value × List Char)
  | 0, _ => .error notCovered
  | fuel + 1, cs =>
    match value fuel cs with
    | .error e => .error e
    | .ok (x, rest) =>
      match skipSpace rest with
      | ',' :: rest =>
        match elements fuel rest with
        | .ok (xs, rest) => .ok (x :: xs, rest)
        | .error e => .error e
      | ']' :: rest => .ok ([x], rest)
      | [] => .error (.Lib "json" "unexpected EOF")
      | c :: _ => .error (.Lib "json" ("invalid character " ++ String.mk [Char.ofNat 39, c, Char.ofNat 39]
          ++ " after array element"))
end

/-- Sample of a `json.Decoder` that decodes its input into a `[]interface{}` holding
the empty slice: the first value of the input must be an array. -/
def Decode (data : String) : Value × Option Error :=
  if (skipSpace data.data).isEmpty then (.slice [], some (.Lib "io" "EOF"))
  else
    match value (data.length + 1) data.data with
    | .error e => (.slice [], some e)
    | .ok (.slice xs, _) => (.slice xs, none)
    | .ok (.nil, _) => (.slice [], some notCovered)
    | .ok _ =>
      (.slice [], some (.Lib "json" "cannot unmarshal into Go value of type []interface \x7b\x7d"))

/-- A string of `depth` copies of `indent`. -/
def indentation (indent : String) (depth : Nat) : String :=
  String.join (List.replicate depth indent)

mutual
/-- JSON text of a value at nesting depth `depth`, without the final newline. -/
def encode (pre indent : String) (depth : Nat) : Value → Except Error String
  | .nil => .ok "null"
  | .bool b => .ok (toString b)
  | .int n => .ok (toString n)
  | .str s =>
    if s.data.all (fun c => c.isAlphanum || c = ' ') then .ok (String.mk (dquote :: s.data ++ [dquote]))
    else .error notCovered
  | .slice [] => .ok "[]"
  | .slice (x :: xs) =>
    match encodeAll pre indent (depth + 1) (x :: xs) with
    | .ok body => .ok ("[\n" ++ body ++ "\n" ++ pre ++ indentation indent depth ++ "]")
    | .error e => .error e
  | .bytes _ => .error notCovered
  | .float _ => .error notCovered
  | .map _ => .error notCovered
/-- JSON text of the elements of an array, one to a line. -/
def encodeAll (pre indent : String) (depth : Nat) : List Value → Except Error String
  | [] => .ok ""
  | [x] =>
    match encode pre indent depth x with
    | .ok t => .ok (pre ++ indentation indent depth ++ t)
    | .error e => .error e
  | x :: y :: ys =>
    match encode pre indent depth x, encodeAll pre indent depth (y :: ys) with
    | .ok t, .ok ts => .ok (pre ++ indentation indent depth ++ t ++ ",\n" ++ ts)
    | .error e, _ => .error e
    | _, .error e => .error e
end

/-- Sample of a `json.Encoder` after `SetIndent(pre, indent)`: the text it writes for
a value, a newline at its end. -/
def Encode (pre indent : String) (v : Value) : String × Option Error :=
  match encode pre indent 0 v with
  | .ok t => (t ++ "\n", none)
  | .error e => ("", some e)

/-- Sample of the report of go-cmp, which promises nothing about its text: one fixed
line. -/
def Report (_ _ : Value) (_ : List CmpOption) : String :=
  "values differ (-previous +current)\n"

/-- The sample instance of `Lib`. -/
def lib : Lib :=
  { Fdump := Sdump,
    Sdump := Sdump,
    SplitLines := SplitLines,
    GetUnifiedDiffString := GetUnifiedDiffString,
    Encode := Encode,
    Decode := Decode,
    Join := Join,
    Base := Base,
    Report := Report }

end sample

/-! ## Conditions on the surroundings of a call -/

/-- Nothing at `path`, so that `os.Open` answers that the file does not exist: the
path is within reach, no regular file stands in place of a directory on the way, and
neither a file nor a directory is at the place it names. -/
def FS.absent (fs : FS) (path : String) : Prop :=
  path ∉ fs.denied ∧ fs.blocked path ≠ some .ENOTDIR ∧
    fs.files.lookup (FS.key path) = none ∧ fs.isDir (FS.key path) = false

/-- The file system after `os.MkdirAll(dir)`. -/
def FS.mkdir (fs : FS) (dir : String) : FS :=
  (FS.MkdirAll (dir.length + 1) fs dir).2

/-- The directory `dir` and then the file `path` can be created: `os.MkdirAll(dir)`
succeeds, and after it `path` is within reach, resolves, and does not name a
directory. -/
def FS.creatable (fs : FS) (dir path : String) : Prop :=
  (FS.MkdirAll (dir.length + 1) fs dir).1 = none ∧
    path ∉ fs.denied ∧ (fs.mkdir dir).blocked path = none ∧
    (fs.mkdir dir).isDir (FS.key path) = false ∧ FS.dirOnly path = false

/-- The device takes all of `data` when the file at `path` is written. -/
def FS.accepts (fs : FS) (path : String) (data : String) : Prop :=
  ∀ room, fs.full.lookup (FS.key path) = some room → data.length ≤ room

/-- The engine with configuration `c` and the spew snapshotter, as `New` and
`WithOptions` build it. -/
def Config.withSpew (L : Lib) (c : Config) : Cupaloy :=
  { toConfig := c, Snapshotter := NewSpewSnapshotter L }

/-- The engine with configuration `c` and a go-cmp snapshotter. -/
def Config.withGocmp (L : Lib) (c : Config) (s : GocmpSnapshotter) : Cupaloy :=
  { toConfig := c, Snapshotter := s.toSnapshotter L }

/-- A relative tolerance computed in float64: the rounded difference of `x` and `y`
is at most the rounded product of `fraction` and the smaller of their magnitudes. -/
def withinRelative (fraction x y : ℚ) : Prop :=
  match F64.round (fraction * min |x| |y|) with
  | none => True
  | some r => ∃ d, F64.round (x - y) = some d ∧ |d| ≤ r

/-- The tolerance the options of `NewGocmpSnapshotter` give two float64 values:
relative, the fraction `1e-11`, as a float64, of the smaller magnitude, with no
absolute margin. -/
def withinFraction (x y : ℚ) : Prop :=
  withinRelative (F64.lit 0.00000000001) x y

/-- Two values that are the same or are both numbers. -/
def sameButNumbers (v w : Value) : Prop :=
  v = w ∨ ∃ x y, v = .float x ∧ w = .float y

/-- Two values that, if both are numbers, are within the tolerance. -/
def numbersWithinFraction (v w : Value) : Prop :=
  ∀ x y, v = .float x → w = .float y → withinFraction x y

/-! ## Concrete scenarios -/

namespace scenario

/-- Nothing on disk, nothing in the environment. -/
def fresh : World :=
  { fs := { files := [], dirs := [], denied := [], full := [] }, env := [], trace := [] }

/-- Slot `foo` holds `hello`. -/
def hello : World :=
  { fs := { files := [(".snapshots/foo", "hello\n")], dirs := [".snapshots"], denied := [],
            full := [] },
    env := [], trace := [] }

/-- Slot `foo` holds `hello`, and `UPDATE_SNAPSHOTS` is set. -/
def helloUpdate : World :=
  { fs := { files := [(".snapshots/foo", "hello\n")], dirs := [".snapshots"], denied := [],
            full := [] },
    env := [("UPDATE_SNAPSHOTS", "1")], trace := [] }

/-- Slot `foo` holds the legacy dump of the string `hello`. -/
def legacy : World :=
  { fs := { files := [(".snapshots/foo", takeV1Snapshot sample.lib [.str "hello"])],
            dirs := [".snapshots"], denied := [], full := [] },
    env := [], trace := [] }

/-- Nothing on disk, and the device has no room left for slot `foo`. -/
def noRoom : World :=
  { fs := { files := [], dirs := [], denied := [], full := [(".snapshots/foo", 0)] },
    env := [], trace := [] }

/-- A test named `name` that has not failed. -/
def test (name : String) : TestingT :=
  { name := name, failed := false, errors := [], fatals := [] }

/-- A regular file stands where the snapshot directory should be. -/
def notDir : World :=
  { fs := { files := [(".snapshots", "x")], dirs := [], denied := [], full := [] },
    env := [], trace := [] }

/-- Nothing on disk, and the snapshot directory may not be made. -/
def readOnly : World :=
  { fs := { files := [], dirs := [], denied := [".snapshots"], full := [] },
    env := [], trace := [] }

/-- The snapshot directory is there and empty, and may not be searched: slot `foo` is
out of reach. -/
def locked : World :=
  { fs := { files := [], dirs := [".snapshots"], denied := [".snapshots/foo"], full := [] },
    env := [], trace := [] }

end scenario

/-! ## The default configuration -/

theorem newDefaultConfig_fields :
    NewDefaultConfig.subDirName = ".snapshots" ∧ NewDefaultConfig.failOnUpdate = true ∧
      NewDefaultConfig.createNewAutomatically = true ∧
      NewDefaultConfig.fatalOnMismatch = false ∧
      NewDefaultConfig.snapshotFileExtension = "" ∧
      ∀ fs env, NewDefaultConfig.shouldUpdate fs env = envVariableSet env "UPDATE_SNAPSHOTS" :=
  ⟨rfl, rfl, rfl, rfl, rfl, fun _ _ => rfl⟩

/-! ## The operating system model, step by step -/

theorem isDir_store (fs : FS) (p d k : String) : (fs.store p d).isDir k = fs.isDir k := rfl

theorem Mkdir_keeps (fs : FS) (name : String) :
    (fs.Mkdir name).2.files = fs.files ∧ (fs.Mkdir name).2.denied = fs.denied ∧
      (fs.Mkdir name).2.full = fs.full := by
  unfold FS.Mkdir
  split
  · exact ⟨rfl, rfl, rfl⟩
  · split
    · exact ⟨rfl, rfl, rfl⟩
    · split <;> exact ⟨rfl, rfl, rfl⟩

theorem MkdirAll_keeps : ∀ (fuel : Nat) (fs : FS) (path : String),
    (FS.MkdirAll fuel fs path).2.files = fs.files ∧
      (FS.MkdirAll fuel fs path).2.denied = fs.denied ∧
      (FS.MkdirAll fuel fs path).2.full = fs.full
  | 0, fs, path => ⟨rfl, rfl, rfl⟩
  | fuel + 1, fs, path => by
    unfold FS.MkdirAll
    split
    · exact ⟨rfl, rfl, rfl⟩
    · split
      · exact ⟨rfl, rfl, rfl⟩
      · simp only []
        have hr : ∀ r : Option Error × FS,
            (r.2.files = fs.files ∧ r.2.denied = fs.denied ∧ r.2.full = fs.full) →
            ((match r with
              | (some err, fs) => (some err, fs)
              | (none, fs) =>
                match fs.Mkdir path with
                | (none, fs) => (none, fs)
                | (some errno, fs) =>
                  if fs.blocked path = none && fs.isDir (FS.key path) then (none, fs)
                  else (some (.PathError "mkdir" path errno), fs)) : Option Error × FS).2.files = fs.files ∧
            ((match r with
              | (some err, fs) => (some err, fs)
              | (none, fs) =>
                match fs.Mkdir path with
                | (none, fs) => (none, fs)
                | (some errno, fs) =>
                  if fs.blocked path = none && fs.isDir (FS.key path) then (none, fs)
                  else (some (.PathError "mkdir" path errno), fs)) : Option Error × FS).2.denied = fs.denied ∧
            ((match r with
              | (some err, fs) => (some err, fs)
              | (none, fs) =>
                match fs.Mkdir path with
                | (none, fs) => (none, fs)
                | (some errno, fs) =>
                  if fs.blocked path = none && fs.isDir (FS.key path) then (none, fs)
                  else (some (.PathError "mkdir" path errno), fs)) : Option Error × FS).2.full = fs.full := by
          rintro ⟨o, fs1⟩ ⟨h1, h2, h3⟩
          cases o with
          | some errno => exact ⟨h1, h2, h3⟩
          | none =>
            simp only []
            have hk := Mkdir_keeps fs1 path
            rcases hm : fs1.Mkdir path with ⟨o2, fs2⟩
            rw [hm] at hk
            simp only [] at hk
            cases o2 with
            | none => exact ⟨hk.1.trans h1, hk.2.1.trans h2, hk.2.2.trans h3⟩
            | some errno =>
              simp only []
              split <;> exact ⟨hk.1.trans h1, hk.2.1.trans h2, hk.2.2.trans h3⟩
        apply hr
        split
        · exact MkdirAll_keeps fuel fs _
        · exact ⟨rfl, rfl, rfl⟩

theorem blocked_cases (fs : FS) (p : String) :
    fs.blocked p = none ∨ fs.blocked p = some .ENOENT ∨ fs.blocked p = some .ENOTDIR := by
  unfold FS.blocked FS.stopped
  split
  · rename_i errno h
    split at h
    · injection h with h
      exact Or.inr (Or.inl (congrArg some h.symm))
    · split at h
      · split at h <;> injection h with h
        · exact Or.inr (Or.inr (congrArg some h.symm))
        · exact Or.inr (Or.inl (congrArg some h.symm))
      · exact absurd h (by simp)
  · split
    · exact Or.inr (Or.inr rfl)
    · exact Or.inl rfl

theorem content_blocked (fs : FS) (p d : String) (h : fs.content p = some d) :
    fs.blocked p = none ∧ fs.files.lookup (FS.key p) = some d := by
  unfold FS.content at h
  split at h
  · exact absurd h (by simp)
  · rename_i hb
    exact ⟨hb, h⟩

theorem content_of_blocked (fs : FS) (p : String) (h : fs.blocked p = none) :
    fs.content p = fs.files.lookup (FS.key p) := by
  simp [FS.content, h]

theorem open_absent (w : World) (p : String) (h : w.fs.absent p) :
    os.Open w p = (.error (.PathError "open" p .ENOENT), w.log (.Open p)) := by
  obtain ⟨h1, h2, h3, h4⟩ := h
  rcases blocked_cases w.fs p with hb | hb | hb
  · simp [os.Open, World.log, h1, hb, content_of_blocked, h3, h4]
  · simp [os.Open, World.log, h1, hb]
  · exact absurd hb h2

theorem open_regular (w : World) (p d : String) (h1 : p ∉ w.fs.denied)
    (h2 : w.fs.content p = some d) :
    os.Open w p = (.ok (.regular p), w.log (.Open p)) := by
  simp [os.Open, World.log, h1, h2, (content_blocked _ _ _ h2).1]

/-- What `os.Open` answers: a regular file within reach, a directory, or an error of
the `open` operation on that path. -/
theorem open_cases (w : World) (p : String) :
    (∃ d, p ∉ w.fs.denied ∧ w.fs.content p = some d ∧
        os.Open w p = (.ok (.regular p), w.log (.Open p))) ∨
      (w.fs.content p = none ∧ os.Open w p = (.ok (.directory p), w.log (.Open p))) ∨
      (∃ errno, os.Open w p = (.error (.PathError "open" p errno), w.log (.Open p))) := by
  by_cases h1 : p ∈ w.fs.denied
  · exact Or.inr (Or.inr ⟨.EACCES, by simp [os.Open, World.log, h1]⟩)
  · cases hb : w.fs.blocked p with
    | some errno => exact Or.inr (Or.inr ⟨errno, by simp [os.Open, World.log, h1, hb]⟩)
    | none =>
      rcases Option.eq_none_or_eq_some (w.fs.content p) with hc | ⟨d, hc⟩
      · by_cases hd : w.fs.isDir (FS.key p) = true
        · exact Or.inr (Or.inl ⟨hc, by simp [os.Open, World.log, h1, hb, hc, hd]⟩)
        · exact Or.inr (Or.inr ⟨.ENOENT, by simp [os.Open, World.log, h1, hb, hc, hd]⟩)
      · exact Or.inl ⟨d, h1, hc, open_regular w p d h1 hc⟩

theorem stopped_store (fs : FS) (p q d : String) (hb : fs.stopped p = none) :
    (fs.store q d).stopped p = none := by
  unfold FS.stopped at hb ⊢
  split at hb
  · exact absurd hb (by simp)
  · rename_i hp
    rw [if_neg hp]
    simp only [isDir_store]
    split at hb
    · split at hb <;> exact absurd hb (by simp)
    · rfl

theorem blocked_stopped (fs : FS) (p : String) (hb : fs.blocked p = none) :
    fs.stopped p = none := by
  unfold FS.blocked at hb
  split at hb
  · exact absurd hb (by simp)
  · assumption

theorem blocked_store (fs : FS) (p d : String) (hb : fs.blocked p = none)
    (hd : FS.dirOnly p = false) : (fs.store p d).blocked p = none := by
  unfold FS.blocked
  rw [stopped_store fs p p d (blocked_stopped fs p hb)]
  simp [hd]

theorem content_store (fs : FS) (p d : String) (hb : fs.blocked p = none)
    (hd : FS.dirOnly p = false) : (fs.store p d).content p = some d := by
  rw [content_of_blocked _ _ (blocked_store fs p d hb hd)]
  simp [FS.store, List.lookup]

theorem store_full (fs : FS) (p d : String) : (fs.store p d).full = fs.full := rfl

theorem store_dirs (fs : FS) (p d : String) : (fs.store p d).dirs = fs.dirs := rfl

theorem store_denied (fs : FS) (p d : String) : (fs.store p d).denied = fs.denied := rfl

theorem store_store (fs : FS) (p d e : String) : (fs.store p d).store p e = fs.store p e := by
  simp [FS.store, List.filter_filter]

theorem mkdir_files (fs : FS) (dir : String) : (fs.mkdir dir).files = fs.files :=
  (MkdirAll_keeps _ fs dir).1

theorem mkdir_denied (fs : FS) (dir : String) : (fs.mkdir dir).denied = fs.denied :=
  (MkdirAll_keeps _ fs dir).2.1

theorem mkdir_full (fs : FS) (dir : String) : (fs.mkdir dir).full = fs.full :=
  (MkdirAll_keeps _ fs dir).2.2

theorem mkdirAll_ok (w : World) (dir : String)
    (h : (FS.MkdirAll (dir.length + 1) w.fs dir).1 = none) :
    os.MkdirAll w dir =
      (none, { w with fs := w.fs.mkdir dir, trace := w.trace ++ [.MkdirAll dir] }) := by
  unfold os.MkdirAll FS.mkdir
  simp only [World.log]
  rw [← h]

theorem mkdirAll_fails (w : World) (dir : String)
    (h : (FS.MkdirAll (dir.length + 1) w.fs dir).1 ≠ none) :
    ∃ e, os.MkdirAll w dir =
      (some e, { w with fs := w.fs.mkdir dir, trace := w.trace ++ [.MkdirAll dir] }) := by
  unfold os.MkdirAll FS.mkdir
  simp only [World.log]
  rcases hm : FS.MkdirAll (dir.length + 1) w.fs dir with ⟨o, fs⟩
  rw [hm] at h
  cases o with
  | none => exact absurd rfl h
  | some err => exact ⟨_, rfl⟩

theorem create_ok (w : World) (p : String) (h1 : p ∉ w.fs.denied)
    (h2 : w.fs.blocked p = none) (h3 : w.fs.isDir (FS.key p) = false)
    (h4 : FS.dirOnly p = false) :
    os.Create w p = (.ok (.regular p),
      { w with fs := w.fs.store p "", trace := w.trace ++ [.Create p] }) := by
  simp [os.Create, World.log, h1, h2, h3, h4]

theorem create_fails (w : World) (p : String)
    (h : ¬ (p ∉ w.fs.denied ∧ w.fs.blocked p = none ∧ w.fs.isDir (FS.key p) = false ∧
      FS.dirOnly p = false)) :
    ∃ errno, os.Create w p = (.error (.PathError "open" p errno), w.log (.Create p)) := by
  by_cases h1 : p ∈ w.fs.denied
  · exact ⟨.EACCES, by simp [os.Create, World.log, h1]⟩
  · cases h2 : w.fs.blocked p with
    | some errno => exact ⟨errno, by simp [os.Create, World.log, h1, h2]⟩
    | none =>
      have h3 : ¬ (w.fs.isDir (FS.key p) = false ∧ FS.dirOnly p = false) :=
        fun h3 => h ⟨h1, h2, h3⟩
      refine ⟨.EISDIR, ?_⟩
      simp only [os.Create, World.log, h1, h2, if_false]
      rw [if_pos]
      by_contra hx
      apply h3
      simpa using hx

theorem stat_eq (w : World) (p : String) (h2 : w.fs.blocked p = none)
    (h3 : w.fs.isDir (FS.key p) = false) :
    os.Stat w p = (if (w.fs.content p).isSome then none
      else some (.PathError "stat" p .ENOENT), w.log (.Stat p)) := by
  unfold os.Stat
  simp only [World.log, h2, h3, Bool.or_false]
  split <;> rfl

theorem stat_snd (w : World) (p : String) : (os.Stat w p).2 = w.log (.Stat p) := by
  unfold os.Stat
  simp only [World.log]
  split
  · rfl
  · split <;> rfl

/-! ## updateSnapshot -/

/-- When the directory and the file can be created, `updateSnapshot` runs to its end:
the file holds what the writer took from `WriteTo`, and the result is nil, Updated or
Created according to `failOnUpdate` and to whether the file was there. -/
theorem updateSnapshot_ok (L : Lib) (c : Cupaloy) (w : World) (name : String) (prev snap : Snap)
    (h : w.fs.creatable c.subDirName (c.snapshotFilePath L name)) :
    c.updateSnapshot L w name prev snap =
      (if c.failOnUpdate = false then none
        else if ((w.fs.mkdir c.subDirName).content (c.snapshotFilePath L name)).isSome then
          some (.ErrSnapshotUpdated name (c.Snapshotter.Diff prev snap))
        else some (.ErrSnapshotCreated name snap),
       { fs := (w.fs.mkdir c.subDirName).store (c.snapshotFilePath L name)
            (c.Snapshotter.WriteTo (w.fs.writer (c.snapshotFilePath L name)) snap).2.2.data,
         env := w.env,
         trace := w.trace ++ [.MkdirAll c.subDirName, .Stat (c.snapshotFilePath L name),
           .Create (c.snapshotFilePath L name),
           .Write (c.snapshotFilePath L name)
             (c.Snapshotter.WriteTo (w.fs.writer (c.snapshotFilePath L name)) snap).2.2.data,
           .Close (c.snapshotFilePath L name)] }) := by
  obtain ⟨hd, h1, h2, h3, h4⟩ := h
  unfold Cupaloy.updateSnapshot
  rw [mkdirAll_ok w _ hd]
  simp only []
  rw [stat_eq ⟨w.fs.mkdir c.subDirName, w.env, w.trace ++ [Event.MkdirAll c.subDirName]⟩ _ h2 h3]
  simp only [World.log]
  have h1b : c.snapshotFilePath L name ∉ (w.fs.mkdir c.subDirName).denied := by
    rw [mkdir_denied]
    exact h1
  rw [create_ok ⟨w.fs.mkdir c.subDirName, w.env,
    w.trace ++ [Event.MkdirAll c.subDirName] ++ [Event.Stat (c.snapshotFilePath L name)]⟩ _ h1b h2 h3 h4]
  simp only [World.written, World.writer, File.Close, File.path, World.log]
  have hwr : ((w.fs.mkdir c.subDirName).store (c.snapshotFilePath L name) "").writer
      (c.snapshotFilePath L name) = w.fs.writer (c.snapshotFilePath L name) := by
    simp only [FS.writer, store_full, mkdir_full]
  rw [hwr, store_store]
  cases hc : (w.fs.mkdir c.subDirName).content (c.snapshotFilePath L name) <;>
  cases hf : c.failOnUpdate <;>
  simp [os.IsNotExist]

/-- When the directory or the file cannot be created, `updateSnapshot` returns the
error of `os.Create` or the one it makes of the error of `os.MkdirAll`, and nothing is
written to any file. -/
theorem updateSnapshot_fails (L : Lib) (c : Cupaloy) (w : World) (name : String)
    (prev snap : Snap)
    (h : ¬ w.fs.creatable c.subDirName (c.snapshotFilePath L name)) :
    ∃ e evs, (c.updateSnapshot L w name prev snap).1 = some e ∧
      (e = .New "could not create snapshots directory" ∨ ∃ op p errno, e = .PathError op p errno) ∧
      (c.updateSnapshot L w name prev snap).2.trace = w.trace ++ evs ∧
      (c.updateSnapshot L w name prev snap).2.fs.files = w.fs.files ∧
      ∀ p d, Event.Write p d ∉ evs := by
  unfold Cupaloy.updateSnapshot
  by_cases hd : (FS.MkdirAll (c.subDirName.length + 1) w.fs c.subDirName).1 = none
  · rw [mkdirAll_ok w _ hd]
    simp only []
    have hcr : ¬ (c.snapshotFilePath L name ∉ (w.fs.mkdir c.subDirName).denied ∧
        (w.fs.mkdir c.subDirName).blocked (c.snapshotFilePath L name) = none ∧
        (w.fs.mkdir c.subDirName).isDir (FS.key (c.snapshotFilePath L name)) = false ∧
        FS.dirOnly (c.snapshotFilePath L name) = false) := by
      rintro ⟨h1, h2, h3, h4⟩
      exact h ⟨hd, by simpa [mkdir_denied] using h1, h2, h3, h4⟩
    rcases hst : os.Stat ⟨w.fs.mkdir c.subDirName, w.env, w.trace ++ [Event.MkdirAll c.subDirName]⟩
      (c.snapshotFilePath L name) with ⟨err, w2⟩
    have hw2 := stat_snd ⟨w.fs.mkdir c.subDirName, w.env, w.trace ++ [Event.MkdirAll c.subDirName]⟩
      (c.snapshotFilePath L name)
    rw [hst] at hw2
    simp only [World.log] at hw2
    subst hw2
    obtain ⟨errno, he⟩ := create_fails ⟨w.fs.mkdir c.subDirName, w.env,
      w.trace ++ [Event.MkdirAll c.subDirName] ++ [Event.Stat (c.snapshotFilePath L name)]⟩
      (c.snapshotFilePath L name) hcr
    rw [he]
    refine ⟨_, [.MkdirAll c.subDirName, .Stat (c.snapshotFilePath L name),
      .Create (c.snapshotFilePath L name)], rfl, Or.inr ⟨_, _, _, rfl⟩, by simp [World.log], ?_,
      by simp⟩
    simp only [World.log]
    exact mkdir_files _ _
  · obtain ⟨e, he⟩ := mkdirAll_fails w _ hd
    rw [he]
    exact ⟨_, [.MkdirAll c.subDirName], rfl, Or.inl rfl, by simp [World.log],
      mkdir_files _ _, by simp⟩

/-! ## snapshot, case by case -/

/-- The run of `snapshot` on a slot whose file is there and can be read. -/
theorem snapshot_existing (L : Lib) (c : Cupaloy) (w : World) (name : String) (i : List Value)
    (stored : String) (prev current : Snap)
    (hcur : c.Snapshotter.Snapshot i = (current, none))
    (hden : c.snapshotFilePath L name ∉ w.fs.denied)
    (hfile : w.fs.content (c.snapshotFilePath L name) = some stored)
    (hprev : c.Snapshotter.ReadFrom { data := stored, err := none } = (prev, none)) :
    c.snapshot L w name i =
      if c.Snapshotter.Diff prev current = "" ∨ Value.eqString (takeV1Snapshot L i) prev = true then
        (none, w.log (.Open (c.snapshotFilePath L name)))
      else if c.shouldUpdate w.fs w.env = true then
        c.updateSnapshot L ((w.log (.Open (c.snapshotFilePath L name))).log .ShouldUpdate)
          name prev current
      else
        (some (.ErrSnapshotMismatch (c.Snapshotter.Diff prev current)),
          (w.log (.Open (c.snapshotFilePath L name))).log .ShouldUpdate) := by
  unfold Cupaloy.snapshot
  rw [hcur]
  simp only []
  rw [open_regular w _ stored hden hfile]
  have hr : (w.log (.Open (c.snapshotFilePath L name))).reader
      (.regular (c.snapshotFilePath L name)) = { data := stored, err := none } := by
    simp [World.reader, World.log, hfile]
  simp only [hr, hprev]
  by_cases h1 : c.Snapshotter.Diff prev current = "" <;>
  by_cases h2 : Value.eqString (takeV1Snapshot L i) prev = true <;>
  by_cases h3 : c.shouldUpdate w.fs w.env = true <;>
  simp [h1, h2, h3, World.log]

/-- The run of `snapshot` on a slot whose file is not there. -/
theorem snapshot_absent (L : Lib) (c : Cupaloy) (w : World) (name : String) (i : List Value)
    (current : Snap)
    (hcur : c.Snapshotter.Snapshot i = (current, none))
    (habs : w.fs.absent (c.snapshotFilePath L name)) :
    c.snapshot L w name i =
      if c.createNewAutomatically = true then
        c.updateSnapshot L (w.log (.Open (c.snapshotFilePath L name))) name .nil current
      else
        (some (.ErrNoSnapshot name), w.log (.Open (c.snapshotFilePath L name))) := by
  unfold Cupaloy.snapshot
  rw [hcur]
  simp only []
  rw [open_absent w _ habs]
  simp [os.IsNotExist]

theorem spew_writeTo (fs : FS) (path s : String) (h : fs.accepts path s) :
    (SpewSnapshotter.WriteTo (fs.writer path) (.str s)).2.2.data = s := by
  unfold SpewSnapshotter.WriteTo io.Copy FS.writer
  by_cases h0 : s.length = 0
  · have : s = "" := by
      cases s with
      | mk d =>
        cases d with
        | nil => rfl
        | cons a t => simp [String.length] at h0
    simp [this]
  · simp only [h0, if_false]
    unfold Writer.Write
    cases hr : fs.full.lookup (FS.key path) with
    | none => simp
    | some room =>
      have := h room hr
      simp [this]

theorem spew_snapshot (L : Lib) (i : List Value) :
    (NewSpewSnapshotter L).Snapshot i = (.str (SpewSnapshotter.buffer L spewConfig i), none) := rfl

theorem withSpew_snapshot (L : Lib) (c : Config) (i : List Value) :
    (c.withSpew L).Snapshotter.Snapshot i =
      (.str (SpewSnapshotter.buffer L spewConfig i), none) := rfl

theorem spew_readFrom (L : Lib) (stored : String) :
    (NewSpewSnapshotter L).ReadFrom { data := stored, err := none } = (.str stored, none) := rfl

theorem withSpew_toConfig (L : Lib) (c : Config) : (c.withSpew L).toConfig = c := rfl

theorem withGocmp_toConfig (L : Lib) (c : Config) (g : GocmpSnapshotter) :
    (c.withGocmp L g).toConfig = c := rfl

/-- The run of `snapshot` when `os.Open` fails on the slot file. -/
theorem snapshot_open_error (L : Lib) (c : Cupaloy) (w : World) (name : String)
    (i : List Value) (current : Snap) (errno : Errno)
    (hcur : c.Snapshotter.Snapshot i = (current, none))
    (hopen : os.Open w (c.snapshotFilePath L name) =
      (.error (.PathError "open" (c.snapshotFilePath L name) errno),
        w.log (.Open (c.snapshotFilePath L name)))) :
    c.snapshot L w name i =
      if errno = .ENOENT then
        if c.createNewAutomatically = true then
          c.updateSnapshot L (w.log (.Open (c.snapshotFilePath L name))) name .nil current
        else
          (some (.ErrNoSnapshot name), w.log (.Open (c.snapshotFilePath L name)))
      else
        (some (.PathError "open" (c.snapshotFilePath L name) errno),
          w.log (.Open (c.snapshotFilePath L name))) := by
  unfold Cupaloy.snapshot
  rw [hcur]
  simp only []
  rw [hopen]
  cases errno <;> simp [os.IsNotExist]

/-- The run of `snapshot`, spew backend, on a slot whose path is a directory. -/
theorem snapshot_directory (L : Lib) (c : Config) (w : World) (name : String) (i : List Value)
    (hopen : os.Open w (c.snapshotFilePath L name) =
      (.ok (.directory (c.snapshotFilePath L name)),
        w.log (.Open (c.snapshotFilePath L name)))) :
    (c.withSpew L).snapshot L w name i =
      (some (.PathError "read" (c.snapshotFilePath L name) .EISDIR),
        w.log (.Open (c.snapshotFilePath L name))) := by
  unfold Cupaloy.snapshot
  rw [withSpew_snapshot L c i]
  simp only [withSpew_toConfig]
  rw [hopen]
  simp [World.log, World.reader, Config.withSpew,
    NewSpewSnapshotter, SpewSnapshotter.ReadFrom, ioutil.ReadAll]

/-! ## Properties of the specification -/

/-- C1. Idempotence of a stabilised snapshot, spew backend, every configuration: if a
call `snapshot(name, values)` ended as Created or Updated, or returned nil, then the
next call `snapshot(name, values)` on the resulting world returns nil and makes no
system call but the `os.Open`, so the file is left as it was; and after Created or
Updated the file holds `Snapshot(values)`. The device is assumed to take the
snapshot when it is written, and the differ to find no difference between the
snapshot and itself. -/
theorem snapshot_idempotent (L : Lib) (c : Config) (w : World) (name : String)
    (i : List Value) (s : String)
    (hsnap : (c.withSpew L).Snapshotter.Snapshot i = (.str s, none))
    (hacc : w.fs.accepts (c.snapshotFilePath L name) s)
    (hrefl : (c.withSpew L).Snapshotter.Diff (.str s) (.str s) = "")
    (hout : ((c.withSpew L).snapshot L w name i).1 = none ∨
      ((c.withSpew L).snapshot L w name i).1 = some (.ErrSnapshotCreated name (.str s)) ∨
      ∃ d, ((c.withSpew L).snapshot L w name i).1 = some (.ErrSnapshotUpdated name d)) :
    (c.withSpew L).snapshot L ((c.withSpew L).snapshot L w name i).2 name i =
        (none, ((c.withSpew L).snapshot L w name i).2.log (.Open (c.snapshotFilePath L name))) ∧
      (((c.withSpew L).snapshot L w name i).1 ≠ none →
        ((c.withSpew L).snapshot L w name i).2.fs.content (c.snapshotFilePath L name) = some s) := by
  -- the run of `updateSnapshot`, whichever branch of `snapshot` enters it
  have update : ∀ (w1 : World) (prev : Snap), w1.fs = w.fs →
      (c.withSpew L).snapshot L w name i = (c.withSpew L).updateSnapshot L w1 name prev (.str s) →
      (c.withSpew L).snapshot L ((c.withSpew L).snapshot L w name i).2 name i =
        (none, ((c.withSpew L).snapshot L w name i).2.log (.Open (c.snapshotFilePath L name))) ∧
      (((c.withSpew L).snapshot L w name i).1 ≠ none →
        ((c.withSpew L).snapshot L w name i).2.fs.content (c.snapshotFilePath L name) = some s) := by
    intro w1 prev hfs he
    rw [he] at hout ⊢
    by_cases hcan : w1.fs.creatable c.subDirName (c.snapshotFilePath L name)
    · have hw : ((c.withSpew L).Snapshotter.WriteTo (w1.fs.writer (c.snapshotFilePath L name))
          (.str s)).2.2.data = s := spew_writeTo w1.fs _ s (hfs ▸ hacc)
      have hok := updateSnapshot_ok L (c.withSpew L) w1 name prev (.str s) hcan
      simp only [withSpew_toConfig] at hok
      have hcontent : ((c.withSpew L).updateSnapshot L w1 name prev (.str s)).2.fs.content
          (c.snapshotFilePath L name) = some s := by
        rw [hok]
        exact (content_store _ _ _ hcan.2.2.1 hcan.2.2.2.2).trans (congrArg some hw)
      have hdenied : c.snapshotFilePath L name ∉
          ((c.withSpew L).updateSnapshot L w1 name prev (.str s)).2.fs.denied := by
        rw [hok]
        simpa [store_denied, mkdir_denied] using hcan.2.1
      refine ⟨?_, fun _ => hcontent⟩
      rw [snapshot_existing L (c.withSpew L) _ name i s (.str s) (.str s) hsnap hdenied hcontent
        (spew_readFrom L s), if_pos (Or.inl hrefl)]
      rfl
    · obtain ⟨e, evs, h1, h2, -⟩ := updateSnapshot_fails L (c.withSpew L) w1 name prev (.str s) hcan
      rw [h1] at hout
      rcases h2 with rfl | ⟨op, p, errno, rfl⟩ <;> simp at hout
  rcases open_cases w (c.snapshotFilePath L name) with
    ⟨stored, hden, hfile, -⟩ | ⟨-, hopen⟩ | ⟨errno, hopen⟩
  · have hex := snapshot_existing L (c.withSpew L) w name i stored (.str stored) (.str s)
      hsnap hden hfile (spew_readFrom L stored)
    by_cases hm : (c.withSpew L).Snapshotter.Diff (.str stored) (.str s) = "" ∨
        Value.eqString (takeV1Snapshot L i) (.str stored) = true
    · rw [if_pos hm] at hex
      rw [hex]
      refine ⟨?_, fun h => absurd rfl h⟩
      show (c.withSpew L).snapshot L (w.log (.Open (c.snapshotFilePath L name))) name i = _
      rw [snapshot_existing L (c.withSpew L) (w.log (.Open (c.snapshotFilePath L name))) name i
        stored (.str stored) (.str s) hsnap hden hfile (spew_readFrom L stored), if_pos hm]
      rfl
    · rw [if_neg hm] at hex
      by_cases hu : (c.withSpew L).shouldUpdate w.fs w.env = true
      · rw [if_pos hu] at hex
        exact update ((w.log (.Open (c.snapshotFilePath L name))).log .ShouldUpdate) _ rfl hex
      · rw [if_neg hu] at hex
        rw [hex] at hout
        simp at hout
  · rw [snapshot_directory L c w name i hopen] at hout
    simp at hout
  · have hab := snapshot_open_error L (c.withSpew L) w name i (.str s) errno hsnap hopen
    by_cases he : errno = .ENOENT
    · rw [if_pos he] at hab
      by_cases ha : (c.withSpew L).createNewAutomatically = true
      · rw [if_pos ha] at hab
        exact update (w.log (.Open (c.snapshotFilePath L name))) _ rfl hab
      · rw [if_neg ha] at hab
        rw [hab] at hout
        simp at hout
    · rw [if_neg he] at hab
      rw [hab] at hout
      simp at hout

/-- C4. Existing slot, genuine mismatch, update predicate false: `snapshot` returns
ErrSnapshotMismatch carrying exactly `Diff(prev, current)`, whatever failOnUpdate is,
and the file system is as it was. -/
theorem snapshot_mismatch (L : Lib) (c : Cupaloy) (w : World) (name : String)
    (i : List Value) (stored : String) (prev current : Snap)
    (hcur : c.Snapshotter.Snapshot i = (current, none))
    (hden : c.snapshotFilePath L name ∉ w.fs.denied)
    (hfile : w.fs.content (c.snapshotFilePath L name) = some stored)
    (hprev : c.Snapshotter.ReadFrom { data := stored, err := none } = (prev, none))
    (hdiff : c.Snapshotter.Diff prev current ≠ "")
    (hlegacy : Value.eqString (takeV1Snapshot L i) prev = false)
    (hupdate : c.shouldUpdate w.fs w.env = false) :
    c.snapshot L w name i =
      (some (.ErrSnapshotMismatch (c.Snapshotter.Diff prev current)),
        { fs := w.fs, env := w.env,
          trace := w.trace ++ [.Open (c.snapshotFilePath L name), .ShouldUpdate] }) := by
  rw [snapshot_existing L c w name i stored prev current hcur hden hfile hprev]
  simp [hdiff, hlegacy, hupdate, World.log]

/-- C10. Legacy bypass rule: on an existing slot, if the legacy dump of the values
equals the stored snapshot, or `Diff(prev, Snapshot(values))` is empty, `snapshot`
returns nil; its only system call is the `os.Open`: nothing is written and the update
predicate is not called, whatever it and failOnUpdate are. -/
theorem snapshot_matched (L : Lib) (c : Cupaloy) (w : World) (name : String)
    (i : List Value) (stored : String) (prev current : Snap)
    (hcur : c.Snapshotter.Snapshot i = (current, none))
    (hden : c.snapshotFilePath L name ∉ w.fs.denied)
    (hfile : w.fs.content (c.snapshotFilePath L name) = some stored)
    (hprev : c.Snapshotter.ReadFrom { data := stored, err := none } = (prev, none))
    (hmatch : Value.eqString (takeV1Snapshot L i) prev = true ∨
      c.Snapshotter.Diff prev current = "") :
    c.snapshot L w name i =
      (none, { fs := w.fs, env := w.env,
               trace := w.trace ++ [.Open (c.snapshotFilePath L name)] }) := by
  rw [snapshot_existing L c w name i stored prev current hcur hden hfile hprev,
    if_pos hmatch.symm]
  rfl

/-- Witness of C1: slot `foo` is created from `hello`; the second call matches and
leaves `hello` in the file. -/
theorem snapshot_idempotent_witness :
    (NewDefaultConfig.withSpew sample.lib).snapshot sample.lib
        ((NewDefaultConfig.withSpew sample.lib).snapshot sample.lib scenario.fresh "foo"
          [.str "hello"]).2 "foo" [.str "hello"] =
      (none,
        { fs := { files := [(".snapshots/foo", "hello\n")], dirs := [".snapshots"],
                  denied := [], full := [] },
          env := [],
          trace := [.Open ".snapshots/foo", .MkdirAll ".snapshots", .Stat ".snapshots/foo",
            .Create ".snapshots/foo", .Write ".snapshots/foo" "hello\n",
            .Close ".snapshots/foo", .Open ".snapshots/foo"] }) ∧
      ((NewDefaultConfig.withSpew sample.lib).snapshot sample.lib scenario.fresh "foo"
        [.str "hello"]).2.fs.content ".snapshots/foo" = some "hello\n" :=
  have h := snapshot_idempotent sample.lib NewDefaultConfig scenario.fresh "foo"
    [.str "hello"] "hello\n" rfl (by unfold FS.accepts; decide) (by decide) (Or.inr (Or.inl rfl))
  ⟨h.1, h.2 (by simp [show ((NewDefaultConfig.withSpew sample.lib).snapshot sample.lib
    scenario.fresh "foo" [.str "hello"]).1 =
      some (.ErrSnapshotCreated "foo" (.str "hello\n")) from rfl])⟩

/-- Witness of C4: slot `foo` holds `hello`, input `world`, update predicate false:
a Mismatch whose diff has the lines `-hello` and `+world`. -/
theorem snapshot_mismatch_witness :
    (New sample.lib []).snapshot sample.lib scenario.hello "foo" [.str "world"] =
      (some (.ErrSnapshotMismatch
          "--- Previous\n+++ Current\n@@ -1,2 +1,2 @@\n-hello\n+world\n \n"),
        { fs := scenario.hello.fs, env := [],
          trace := [.Open ".snapshots/foo", .ShouldUpdate] }) :=
  snapshot_mismatch sample.lib (New sample.lib []) scenario.hello "foo" [.str "world"]
    "hello\n" (.str "hello\n") (.str "world\n") rfl (by decide) rfl rfl (by decide) rfl rfl

/-- Witness of C10: slot `foo` holds the legacy dump of `hello`; the diff against the
new snapshot is not empty, and the call still matches. -/
theorem snapshot_matched_witness :
    (New sample.lib []).snapshot sample.lib scenario.legacy "foo" [.str "hello"] =
      (none, { fs := scenario.legacy.fs, env := [], trace := [.Open ".snapshots/foo"] }) :=
  snapshot_matched sample.lib (New sample.lib []) scenario.legacy "foo" [.str "hello"]
    (takeV1Snapshot sample.lib [.str "hello"]) (.str (takeV1Snapshot sample.lib [.str "hello"]))
    (.str "hello\n") rfl (by decide) rfl rfl (Or.inl rfl)

/-- C7, as amended. Legacy-compatibility law for the spew backend: if the slot file
holds the legacy dump of the values, `snapshot` returns nil and its only system call
is the `os.Open`, so the file is not rewritten. With the go-cmp backend the stored
text goes through the JSON decoder first: whenever decoding it fails, `snapshot`
returns that error, again with the `os.Open` as its only system call. -/
theorem legacy_compatible (L : Lib) (c : Config) (g : GocmpSnapshotter) (w : World)
    (name : String) (i : List Value)
    (hden : c.snapshotFilePath L name ∉ w.fs.denied)
    (hfile : w.fs.content (c.snapshotFilePath L name) = some (takeV1Snapshot L i)) :
    (c.withSpew L).snapshot L w name i =
        (none, { fs := w.fs, env := w.env,
                 trace := w.trace ++ [.Open (c.snapshotFilePath L name)] }) ∧
      ∀ v e, L.Decode (takeV1Snapshot L i) = (v, some e) →
        (c.withGocmp L g).snapshot L w name i =
          (some e, { fs := w.fs, env := w.env,
                     trace := w.trace ++ [.Open (c.snapshotFilePath L name)] }) := by
  constructor
  · rw [snapshot_existing L (c.withSpew L) w name i (takeV1Snapshot L i)
      (.str (takeV1Snapshot L i)) (.str (SpewSnapshotter.buffer L spewConfig i))
      (spew_snapshot L i) hden hfile (spew_readFrom L _),
      if_pos (Or.inr (by simp [Value.eqString]))]
    rfl
  · intro v e hdec
    unfold Cupaloy.snapshot
    have hs : (c.withGocmp L g).Snapshotter.Snapshot i =
        (.slice (i.foldl (fun snap obj => snap ++ [obj]) []), none) := rfl
    rw [hs]
    simp only [withGocmp_toConfig]
    rw [open_regular w _ _ hden hfile]
    have hr : (c.withGocmp L g).Snapshotter.ReadFrom
        ((w.log (.Open (c.snapshotFilePath L name))).reader
          (.regular (c.snapshotFilePath L name))) = (v, some e) := by
      show GocmpSnapshotter.ReadFrom L
        ((w.log (.Open (c.snapshotFilePath L name))).reader
          (.regular (c.snapshotFilePath L name))) = (v, some e)
      simp [GocmpSnapshotter.ReadFrom, World.reader, World.log, hfile, hdec]
    simp only [hr]
    rfl

/-- Witness of C7 as amended: slot `foo` holds the legacy dump of `hello`; the spew
backend matches, the go-cmp backend returns the error of the decoder. -/
theorem legacy_compatible_witness :
    (NewDefaultConfig.withSpew sample.lib).snapshot sample.lib scenario.legacy "foo"
        [.str "hello"] =
        (none, { fs := scenario.legacy.fs, env := [], trace := [.Open ".snapshots/foo"] }) ∧
      (NewDefaultConfig.withGocmp sample.lib NewGocmpSnapshotter).snapshot sample.lib
          scenario.legacy "foo" [.str "hello"] =
        (some (sample.invalidCharacter '('),
          { fs := scenario.legacy.fs, env := [], trace := [.Open ".snapshots/foo"] }) :=
  have h := legacy_compatible sample.lib NewDefaultConfig NewGocmpSnapshotter scenario.legacy
    "foo" [.str "hello"] (by decide) rfl
  ⟨h.1, h.2 (.slice []) (sample.invalidCharacter '(') rfl⟩

/-- Counterexample to C7 as stated: slot `foo` holds the legacy dump of `hello`
and the engine runs with the go-cmp backend; `snapshot` returns the syntax error of
the JSON decoder, not nil. -/
theorem legacy_gocmp_counterexample :
    scenario.legacy.fs.content ".snapshots/foo" =
        some (takeV1Snapshot sample.lib [.str "hello"]) ∧
      (NewDefaultConfig.withGocmp sample.lib NewGocmpSnapshotter).snapshot sample.lib
          scenario.legacy "foo" [.str "hello"] =
        (some (sample.invalidCharacter '('),
          { fs := scenario.legacy.fs, env := [], trace := [.Open ".snapshots/foo"] }) :=
  ⟨rfl, rfl⟩

/-- C6 at its failing input: nothing on disk, no room left on the device for slot
`foo`, input `hello`. `WriteTo` returns an error and the file stays empty; `snapshot`
returns nil when failOnUpdate is off and ErrSnapshotCreated when it is on. -/
theorem write_error_swallowed :
    (SpewSnapshotter.WriteTo (scenario.noRoom.fs.writer ".snapshots/foo") (.str "hello\n")).2.1 =
        some (.PathError "write" ".snapshots/foo" .ENOSPC) ∧
      ((NewDefaultConfig.WithOptions [FailOnUpdate false]).withSpew sample.lib).snapshot
          sample.lib scenario.noRoom "foo" [.str "hello"] =
        (none,
          { fs := { files := [(".snapshots/foo", "")], dirs := [".snapshots"], denied := [],
                    full := [(".snapshots/foo", 0)] },
            env := [],
            trace := [.Open ".snapshots/foo", .MkdirAll ".snapshots", .Stat ".snapshots/foo",
              .Create ".snapshots/foo", .Write ".snapshots/foo" "",
              .Close ".snapshots/foo"] }) ∧
      ((NewDefaultConfig.withSpew sample.lib).snapshot sample.lib scenario.noRoom "foo"
          [.str "hello"]).1 = some (.ErrSnapshotCreated "foo" (.str "hello\n")) :=
  ⟨rfl, rfl, rfl⟩

/-- The same holds for every snapshotter and every world in which the directory and
the file can be created: with failOnUpdate off, `updateSnapshot` returns nil whatever
`WriteTo` returns. -/
theorem updateSnapshot_ignores_writeTo (L : Lib) (c : Cupaloy) (w : World) (name : String)
    (prev snap : Snap)
    (h : w.fs.creatable c.subDirName (c.snapshotFilePath L name))
    (hfail : c.failOnUpdate = false) :
    (c.updateSnapshot L w name prev snap).1 = none := by
  rw [updateSnapshot_ok L c w name prev snap h]
  simp [hfail]

/-- The part of C6 that holds: when the directory or the file cannot be created,
`updateSnapshot` returns an error, whatever failOnUpdate is. -/
theorem updateSnapshot_reports_create (L : Lib) (c : Cupaloy) (w : World) (name : String)
    (prev snap : Snap)
    (h : ¬ w.fs.creatable c.subDirName (c.snapshotFilePath L name)) :
    ∃ e, (c.updateSnapshot L w name prev snap).1 = some e := by
  obtain ⟨e, _, he, _⟩ := updateSnapshot_fails L c w name prev snap h
  exact ⟨e, he⟩

theorem replaceN_slash (fuel : Nat) (s : List Char) (h : s.length ≤ fuel) :
    '/' ∉ strings.replaceN ['/'] ['-'] fuel none s := by
  induction s generalizing fuel with
  | nil => cases fuel <;> simp [strings.replaceN]
  | cons c cs ih =>
    cases fuel with
    | zero => simp at h
    | succ fuel =>
      have hl : cs.length ≤ fuel := by simpa using h
      have := ih fuel hl
      by_cases hc : c = '/'
      · subst hc
        simp [strings.replaceN, List.isPrefixOf, this]
      · simp [strings.replaceN, List.isPrefixOf, hc, this, Ne.symm hc]

/-- The part of C8 that holds: the name `SnapshotT` hands to `snapshot`, the test
name with its slashes replaced, has no slash. -/
theorem snapshotT_name_no_slash (name : String) :
    '/' ∉ (strings.Replace name "/" "-" (-1)).data := by
  unfold strings.Replace
  simp only [show ("/" : String).data = ['/'] from rfl, show ("-" : String).data = ['-'] from rfl,
    List.isEmpty_cons, Bool.false_eq_true, if_false]
  exact replaceN_slash _ _ (Nat.le_refl _)

/-- C8 at its failing input: `SnapshotMulti` called from `pkg.TestFoo` with the
snapshotID `a/b` forms the name `pkg-TestFoo-a/b`, slash included; the slot path
`.snapshots/pkg-TestFoo-a/b` is not a direct child of `.snapshots`, and on an empty
disk the call ends in the error of `os.Create`, the directory in between missing.
`SnapshotT` in a test named `TestFoo/a/b` opens `.snapshots/TestFoo-a-b`. -/
theorem snapshotMulti_keeps_slash :
    fmt.Sprintf "%s-%s" [getNameOfCaller sample.lib "github.com/acme/pkg.TestFoo", "a/b"] =
        "pkg-TestFoo-a/b" ∧
      (New sample.lib []).SnapshotMulti sample.lib scenario.fresh
          "github.com/acme/pkg.TestFoo" "a/b" [.str "hello"] =
        (some (.PathError "open" ".snapshots/pkg-TestFoo-a/b" .ENOENT),
          { fs := { files := [], dirs := [".snapshots"], denied := [], full := [] },
            env := [],
            trace := [.Open ".snapshots/pkg-TestFoo-a/b", .MkdirAll ".snapshots",
              .Stat ".snapshots/pkg-TestFoo-a/b", .Create ".snapshots/pkg-TestFoo-a/b"] }) ∧
      ((New sample.lib []).SnapshotT sample.lib scenario.fresh
          (scenario.test "TestFoo/a/b") [.str "hello"]).2.trace.head? =
        some (.Open ".snapshots/TestFoo-a-b") :=
  ⟨by decide, rfl, by decide⟩

theorem mkdir_content_absent (fs : FS) (dir p : String) (habs : fs.absent p)
    (hb : (fs.mkdir dir).blocked p = none) : (fs.mkdir dir).content p = none := by
  rw [content_of_blocked _ _ hb, mkdir_files]
  exact habs.2.2.1

/-- C2, as amended. Absent slot, auto-create on, spew backend: when the directory and
the file can be created and the device takes the snapshot, `snapshot` leaves the slot
file holding exactly `Snapshot(values)`, whatever the update predicate is; and with
failOnUpdate on it returns ErrSnapshotCreated with the slot name and that snapshot. -/
theorem snapshot_created (L : Lib) (c : Config) (w : World) (name : String)
    (i : List Value) (s : String)
    (hsnap : (c.withSpew L).Snapshotter.Snapshot i = (.str s, none))
    (habs : w.fs.absent (c.snapshotFilePath L name))
    (hauto : c.createNewAutomatically = true)
    (hcan : w.fs.creatable c.subDirName (c.snapshotFilePath L name))
    (hacc : w.fs.accepts (c.snapshotFilePath L name) s) :
    ((c.withSpew L).snapshot L w name i).2.fs.content (c.snapshotFilePath L name) = some s ∧
      (c.failOnUpdate = true →
        ((c.withSpew L).snapshot L w name i).1 = some (.ErrSnapshotCreated name (.str s))) := by
  rw [snapshot_absent L (c.withSpew L) w name i (.str s) hsnap habs]
  have hauto2 : (c.withSpew L).createNewAutomatically = true := hauto
  rw [if_pos hauto2]
  simp only [withSpew_toConfig]
  rw [updateSnapshot_ok L (c.withSpew L) (w.log (.Open (c.snapshotFilePath L name))) name .nil (.str s) hcan]
  have hw := spew_writeTo w.fs (c.snapshotFilePath L name) s hacc
  refine ⟨?_, ?_⟩
  · simp only [World.log]
    exact (content_store _ _ _ hcan.2.2.1 hcan.2.2.2.2).trans (congrArg some hw)
  · intro hf
    have hf2 : (c.withSpew L).failOnUpdate = true := hf
    have hnone : ((w.log (.Open (c.snapshotFilePath L name))).fs.mkdir
        (c.withSpew L).subDirName).content ((c.withSpew L).snapshotFilePath L name) = none :=
      mkdir_content_absent w.fs c.subDirName _ habs hcan.2.2.1
    simp [hf2, hnone]

/-- C3, as amended. Slot file not there, as `os.Open` finds it (nothing at the slot
path, which is within reach, and no regular file in the place of a directory on the
way), auto-create off: `snapshot` returns ErrNoSnapshot with the slot name, whatever
the update predicate and failOnUpdate are; its only system call is the `os.Open`, and
the file system is as it was. -/
theorem snapshot_no_snapshot (L : Lib) (c : Cupaloy) (w : World) (name : String)
    (i : List Value)
    (hsnap : (c.Snapshotter.Snapshot i).2 = none)
    (habs : w.fs.absent (c.snapshotFilePath L name))
    (hauto : c.createNewAutomatically = false) :
    c.snapshot L w name i =
      (some (.ErrNoSnapshot name),
        { fs := w.fs, env := w.env, trace := w.trace ++ [.Open (c.snapshotFilePath L name)] }) := by
  have hcur : c.Snapshotter.Snapshot i = ((c.Snapshotter.Snapshot i).1, none) := by
    rw [← hsnap]
  rw [snapshot_absent L c w name i _ hcur habs, hauto]
  rfl

/-- C5, as amended. The update path with failOnUpdate off, spew backend: for an absent
slot with auto-create on, or an existing slot that genuinely mismatches while the
update predicate is true, when the directory and the file can be created and the
device takes the snapshot, `snapshot` returns nil and the slot file holds exactly
`Snapshot(values)`. -/
theorem snapshot_update_silent (L : Lib) (c : Config) (w : World) (name : String)
    (i : List Value) (s : String)
    (hsnap : (c.withSpew L).Snapshotter.Snapshot i = (.str s, none))
    (hfail : c.failOnUpdate = false)
    (hcan : w.fs.creatable c.subDirName (c.snapshotFilePath L name))
    (hacc : w.fs.accepts (c.snapshotFilePath L name) s)
    (hpath : (w.fs.absent (c.snapshotFilePath L name) ∧ c.createNewAutomatically = true) ∨
      (∃ stored, w.fs.content (c.snapshotFilePath L name) = some stored ∧
        (c.withSpew L).Snapshotter.Diff (.str stored) (.str s) ≠ "" ∧
        takeV1Snapshot L i ≠ stored ∧ c.shouldUpdate w.fs w.env = true)) :
    ((c.withSpew L).snapshot L w name i).1 = none ∧
      ((c.withSpew L).snapshot L w name i).2.fs.content (c.snapshotFilePath L name) = some s := by
  have hw := spew_writeTo w.fs (c.snapshotFilePath L name) s hacc
  have hfail2 : (c.withSpew L).failOnUpdate = false := hfail
  rcases hpath with ⟨habs, hauto⟩ | ⟨stored, hfile, hdiff, hleg, hupd⟩
  · have hauto2 : (c.withSpew L).createNewAutomatically = true := hauto
    rw [snapshot_absent L (c.withSpew L) w name i (.str s) hsnap habs, if_pos hauto2]
    simp only [withSpew_toConfig]
    rw [updateSnapshot_ok L (c.withSpew L) (w.log (.Open (c.snapshotFilePath L name))) name .nil (.str s) hcan]
    refine ⟨by simp [hfail2], ?_⟩
    simp only [World.log]
    exact (content_store _ _ _ hcan.2.2.1 hcan.2.2.2.2).trans (congrArg some hw)
  · have hupd2 : (c.withSpew L).shouldUpdate w.fs w.env = true := hupd
    have hleg2 : ¬ Value.eqString (takeV1Snapshot L i) (.str stored) = true := by
      simpa [Value.eqString] using hleg
    rw [snapshot_existing L (c.withSpew L) w name i stored (.str stored) (.str s) hsnap
      hcan.2.1 hfile (spew_readFrom L stored),
      if_neg (by rintro (h | h); exact hdiff h; exact hleg2 h), if_pos hupd2]
    simp only [withSpew_toConfig]
    rw [updateSnapshot_ok L (c.withSpew L) ((w.log (.Open (c.snapshotFilePath L name))).log .ShouldUpdate) name (.str stored) (.str s) hcan]
    refine ⟨by simp [hfail2], ?_⟩
    simp only [World.log]
    exact (content_store _ _ _ hcan.2.2.1 hcan.2.2.2.2).trans (congrArg some hw)

/-- Witness of C2 as amended: slot `foo` absent, input `hello`: the file
`.snapshots/foo` holds `hello` and a newline, and the call returns a Created error
naming `foo`. -/
theorem snapshot_created_witness :
    ((NewDefaultConfig.withSpew sample.lib).snapshot sample.lib scenario.fresh "foo"
        [.str "hello"]).2.fs.content ".snapshots/foo" = some "hello\n" ∧
      ((NewDefaultConfig.withSpew sample.lib).snapshot sample.lib scenario.fresh "foo"
        [.str "hello"]).1 = some (.ErrSnapshotCreated "foo" (.str "hello\n")) :=
  have h := snapshot_created sample.lib NewDefaultConfig scenario.fresh "foo" [.str "hello"]
    "hello\n" rfl (by unfold FS.absent; decide) rfl
    ⟨rfl, by decide, by decide, by decide, by decide⟩ (by unfold FS.accepts; decide)
  ⟨h.1, h.2 rfl⟩

/-- Counterexample to C2 as stated: slot `foo` absent, auto-create on, the directory
and the file can be created, but the device has no room for the file: after the call
the file `.snapshots/foo` is empty, it does not hold `Snapshot(values)`. -/
theorem snapshot_created_counterexample :
    scenario.noRoom.fs.absent (NewDefaultConfig.snapshotFilePath sample.lib "foo") ∧
      NewDefaultConfig.createNewAutomatically = true ∧
      scenario.noRoom.fs.creatable NewDefaultConfig.subDirName
        (NewDefaultConfig.snapshotFilePath sample.lib "foo") ∧
      (NewDefaultConfig.withSpew sample.lib).Snapshotter.Snapshot [.str "hello"] =
        (.str "hello\n", none) ∧
      ((NewDefaultConfig.withSpew sample.lib).snapshot sample.lib scenario.noRoom "foo"
        [.str "hello"]).2.fs.content (NewDefaultConfig.snapshotFilePath sample.lib "foo") =
          some "" :=
  ⟨by unfold FS.absent; decide, rfl, ⟨rfl, by decide, by decide, by decide, by decide⟩, rfl, by decide⟩

/-- Witness of C3 as amended: slot `foo` absent, auto-create off. -/
theorem snapshot_no_snapshot_witness :
    (New sample.lib [CreateNewAutomatically false]).snapshot sample.lib scenario.fresh "foo"
        [.str "hello"] =
      (some (.ErrNoSnapshot "foo"),
        { fs := scenario.fresh.fs, env := [], trace := [.Open ".snapshots/foo"] }) :=
  snapshot_no_snapshot sample.lib (New sample.lib [CreateNewAutomatically false])
    scenario.fresh "foo" [.str "hello"] rfl (by unfold FS.absent; decide) rfl

/-- Counterexample to C3 as stated, auto-create off and the slot file `.snapshots/foo`
absent in both cases. A regular file stands where the snapshot directory should be:
`snapshot` returns the error of `os.Open`, not a directory, and not ErrNoSnapshot. The
snapshot directory may not be searched: `snapshot` returns the permission error of
`os.Open`, and not ErrNoSnapshot. -/
theorem snapshot_no_snapshot_counterexample :
    (New sample.lib [CreateNewAutomatically false]).createNewAutomatically = false ∧
      (scenario.notDir.fs.content ".snapshots/foo" = none ∧
        scenario.notDir.fs.isDir ".snapshots/foo" = false ∧
        (New sample.lib [CreateNewAutomatically false]).snapshot sample.lib scenario.notDir
          "foo" [.str "hello"] =
        (some (.PathError "open" ".snapshots/foo" .ENOTDIR),
          { fs := scenario.notDir.fs, env := [], trace := [.Open ".snapshots/foo"] })) ∧
      (scenario.locked.fs.content ".snapshots/foo" = none ∧
        scenario.locked.fs.isDir ".snapshots/foo" = false ∧
        (New sample.lib [CreateNewAutomatically false]).snapshot sample.lib scenario.locked
          "foo" [.str "hello"] =
        (some (.PathError "open" ".snapshots/foo" .EACCES),
          { fs := scenario.locked.fs, env := [], trace := [.Open ".snapshots/foo"] })) :=
  ⟨rfl, ⟨by decide, by decide, rfl⟩, ⟨by decide, by decide, rfl⟩⟩

/-- Witness of C5 as amended: slot `foo` holds `hello`, input `world`, update predicate
true, failOnUpdate off: the file holds `world` and the call returns nil. -/
theorem snapshot_update_silent_witness :
    (((NewDefaultConfig.WithOptions [FailOnUpdate false]).withSpew sample.lib).snapshot
        sample.lib scenario.helloUpdate "foo" [.str "world"]).1 = none ∧
      (((NewDefaultConfig.WithOptions [FailOnUpdate false]).withSpew sample.lib).snapshot
        sample.lib scenario.helloUpdate "foo" [.str "world"]).2.fs.content ".snapshots/foo" =
          some "world\n" :=
  snapshot_update_silent sample.lib (NewDefaultConfig.WithOptions [FailOnUpdate false])
    scenario.helloUpdate "foo" [.str "world"] "world\n" rfl rfl
    ⟨rfl, by decide, by decide, by decide, by decide⟩ (by unfold FS.accepts; decide)
    (Or.inr ⟨"hello\n", by decide, by decide, by decide, rfl⟩)

/-- Counterexample to C5 as stated, slot `foo` absent, auto-create on and failOnUpdate
off in both cases, so that `snapshot` takes the update path. The snapshot directory
may not be made: `snapshot` returns the error of the directory, not nil, and there is
no slot file afterwards. The device has no room for the slot file: the file is left
empty, it does not hold `Snapshot(values)`. -/
theorem snapshot_update_silent_counterexample :
    (NewDefaultConfig.WithOptions [FailOnUpdate false]).createNewAutomatically = true ∧
      (NewDefaultConfig.WithOptions [FailOnUpdate false]).failOnUpdate = false ∧
      (scenario.readOnly.fs.absent
          ((NewDefaultConfig.WithOptions [FailOnUpdate false]).snapshotFilePath sample.lib "foo") ∧
        ((NewDefaultConfig.WithOptions [FailOnUpdate false]).withSpew sample.lib).snapshot
          sample.lib scenario.readOnly "foo" [.str "hello"] =
        (some (.New "could not create snapshots directory"),
          { fs := scenario.readOnly.fs, env := [],
            trace := [.Open ".snapshots/foo", .MkdirAll ".snapshots"] }) ∧
        scenario.readOnly.fs.content ".snapshots/foo" = none) ∧
      (scenario.noRoom.fs.absent
          ((NewDefaultConfig.WithOptions [FailOnUpdate false]).snapshotFilePath sample.lib "foo") ∧
        ((NewDefaultConfig.WithOptions [FailOnUpdate false]).withSpew sample.lib).Snapshotter.Snapshot
          [.str "hello"] = (.str "hello\n", none) ∧
        (((NewDefaultConfig.WithOptions [FailOnUpdate false]).withSpew sample.lib).snapshot
          sample.lib scenario.noRoom "foo" [.str "hello"]).2.fs.content ".snapshots/foo" =
            some "") :=
  ⟨rfl, rfl, ⟨by unfold FS.absent; decide, rfl, by decide⟩,
    ⟨by unfold FS.absent; decide, rfl, by decide⟩⟩

/-! ## float64 -/

theorem F64.nearest_eq (r : ℚ) (n : ℤ) (h : |r - n| < 1 / 2) : F64.nearest r = n := by
  rw [abs_lt] at h
  obtain ⟨h1, h2⟩ := h
  unfold F64.nearest
  simp only []
  by_cases hn : (n : ℚ) ≤ r
  · have hf : ⌊r⌋ = n := by
      rw [Int.floor_eq_iff]
      constructor
      · exact hn
      · linarith
    rw [hf, if_pos h2]
  · have hf : ⌊r⌋ = n - 1 := by
      rw [Int.floor_eq_iff]
      push_cast
      constructor
      · linarith
      · linarith
    rw [hf]
    push_cast
    rw [if_neg (by linarith), if_pos (by linarith)]
    ring

theorem F64.nearest_nonneg (r : ℚ) (h : 0 ≤ r) : 0 ≤ F64.nearest r := by
  have hf : 0 ≤ ⌊r⌋ := Int.floor_nonneg.mpr h
  unfold F64.nearest
  simp only []
  split
  · exact hf
  · split
    · omega
    · split <;> omega

theorem F64.quantum_pos (q : ℚ) : 0 < F64.quantum q := by
  unfold F64.quantum
  positivity

theorem F64.quantum_eq (q : ℚ) (e : ℤ) (he : -1022 ≤ e) (h1 : 2 ^ e ≤ |q|)
    (h2 : |q| < 2 ^ (e + 1)) : F64.quantum q = 2 ^ (e - 52) := by
  have hpos : 0 < |q| := lt_of_lt_of_le (by positivity) h1
  have hlog : Int.log 2 |q| = e := by
    have a : e ≤ Int.log 2 |q| := (Int.zpow_le_iff_le_log (by norm_num) hpos).mp (by exact_mod_cast h1)
    have b : Int.log 2 |q| < e + 1 := (Int.lt_zpow_iff_log_lt (by norm_num) hpos).mp (by exact_mod_cast h2)
    omega
  unfold F64.quantum
  rw [hlog, max_eq_left he]

theorem F64.round_eq (q : ℚ) (e n : ℤ) (he : -1022 ≤ e) (h1 : 2 ^ e ≤ |q|)
    (h2 : |q| < 2 ^ (e + 1)) (hn : |q / 2 ^ (e - 52) - n| < 1 / 2)
    (hv : |(n : ℚ) * 2 ^ (e - 52)| < 2 ^ 1024) :
    F64.round q = some ((n : ℚ) * 2 ^ (e - 52)) := by
  unfold F64.round
  simp only []
  rw [F64.quantum_eq q e he h1 h2, F64.nearest_eq _ n hn, if_pos hv]

theorem F64.round_nonneg (q v : ℚ) (h : 0 ≤ q) (hv : F64.round q = some v) : 0 ≤ v := by
  unfold F64.round at hv
  simp only [] at hv
  split at hv
  · injection hv with hv
    rw [← hv]
    apply mul_nonneg
    · exact_mod_cast F64.nearest_nonneg _ (div_nonneg h (F64.quantum_pos q).le)
    · exact (F64.quantum_pos q).le
  · exact absurd hv (by simp)

theorem F64.round_zero : F64.round 0 = some 0 := by
  unfold F64.round
  simp only [zero_div]
  rw [F64.nearest_eq 0 0 (by norm_num)]
  norm_num

theorem F64.lit_nonneg (q : ℚ) (h : 0 ≤ q) : 0 ≤ F64.lit q := by
  unfold F64.lit
  cases hr : F64.round q with
  | none => exact le_refl _
  | some v => exact F64.round_nonneg q v h hr

theorem F64.lit_eq (q : ℚ) (e n : ℤ) (he : -1022 ≤ e) (h1 : 2 ^ e ≤ |q|)
    (h2 : |q| < 2 ^ (e + 1)) (hn : |q / 2 ^ (e - 52) - n| < 1 / 2)
    (hv : |(n : ℚ) * 2 ^ (e - 52)| < 2 ^ 1024) :
    F64.lit q = (n : ℚ) * 2 ^ (e - 52) := by
  unfold F64.lit
  rw [F64.round_eq q e n he h1 h2 hn hv]
  rfl

/-! ## go-cmp with the options of NewGocmpSnapshotter -/

theorem compareF64_relative (c x y : ℚ) (hc : 0 ≤ c) :
    cmpopts.compareF64 c 0 x y = true ↔ withinRelative c x y := by
  have hm : (0 : ℚ) ≤ c * min |x| |y| :=
    mul_nonneg hc (le_min (abs_nonneg x) (abs_nonneg y))
  unfold cmpopts.compareF64 withinRelative
  cases hr : F64.round (c * min |x| |y|) with
  | none => simp
  | some r =>
    have hr0 : 0 ≤ r := F64.round_nonneg _ r hm hr
    cases hd : F64.round (x - y) with
    | none => simp
    | some d => simp [max_eq_right hr0]

theorem compareF64_self (c x : ℚ) (hc : 0 ≤ c) : cmpopts.compareF64 c 0 x x = true := by
  have hm : (0 : ℚ) ≤ c * min |x| |x| :=
    mul_nonneg hc (le_min (abs_nonneg x) (abs_nonneg x))
  rw [compareF64_relative c x x hc]
  unfold withinRelative
  cases hr : F64.round (c * min |x| |x|) with
  | none => trivial
  | some r =>
    refine ⟨0, ?_, ?_⟩
    · rw [sub_self]
      exact F64.round_zero
    · rw [abs_zero]
      exact F64.round_nonneg _ r hm hr

theorem equalFloat_default (x y : ℚ) :
    cmp.equalFloat NewGocmpSnapshotter.GocmpOptions x y = true ↔ withinFraction x y :=
  compareF64_relative (F64.lit 0.00000000001) x y (F64.lit_nonneg _ (by norm_num))

theorem withinFraction_self (x : ℚ) : withinFraction x x :=
  (equalFloat_default x x).mp (compareF64_self _ x (F64.lit_nonneg _ (by norm_num)))

theorem withinRelative_of (c x y : ℚ) (e n f m : ℤ)
    (he : -1022 ≤ e) (h1 : 2 ^ e ≤ abs (c * min |x| |y|)) (h2 : abs (c * min |x| |y|) < 2 ^ (e + 1))
    (hn : abs (c * min |x| |y| / 2 ^ (e - 52) - n) < 1 / 2)
    (hv : |(n : ℚ) * 2 ^ (e - 52)| < 2 ^ 1024)
    (hf : -1022 ≤ f) (k1 : 2 ^ f ≤ |x - y|) (k2 : |x - y| < 2 ^ (f + 1))
    (hm : |(x - y) / 2 ^ (f - 52) - m| < 1 / 2)
    (hw : |(m : ℚ) * 2 ^ (f - 52)| < 2 ^ 1024) :
    withinRelative c x y ↔ |(m : ℚ) * 2 ^ (f - 52)| ≤ (n : ℚ) * 2 ^ (e - 52) := by
  unfold withinRelative
  rw [F64.round_eq _ e n he h1 h2 hn hv, F64.round_eq _ f m hf k1 k2 hm hw]
  simp

theorem lit_fraction : F64.lit 0.00000000001 = 6189700196426901 / 2 ^ 89 := by
  rw [F64.lit_eq 0.00000000001 (-37) 6189700196426901 (by norm_num)
    (by norm_num [abs_of_nonneg, abs_of_neg, min_def]) (by norm_num [abs_of_nonneg, abs_of_neg, min_def])
    (by norm_num [abs_of_nonneg, abs_of_neg, min_def, abs_lt]) (by norm_num [abs_of_nonneg, abs_of_neg, min_def])]
  norm_num

theorem lit_test_a : F64.lit 0.1234567890022 = 4447999591573327 / 2 ^ 55 := by
  rw [F64.lit_eq 0.1234567890022 (-4) 8895999183146654 (by norm_num)
    (by norm_num [abs_of_nonneg, abs_of_neg, min_def]) (by norm_num [abs_of_nonneg, abs_of_neg, min_def])
    (by norm_num [abs_of_nonneg, abs_of_neg, min_def, abs_lt]) (by norm_num [abs_of_nonneg, abs_of_neg, min_def])]
  norm_num

theorem lit_test_b : F64.lit 0.123456789001 = 8895999183060185 / 2 ^ 56 := by
  rw [F64.lit_eq 0.123456789001 (-4) 8895999183060185 (by norm_num)
    (by norm_num [abs_of_nonneg, abs_of_neg, min_def]) (by norm_num [abs_of_nonneg, abs_of_neg, min_def])
    (by norm_num [abs_of_nonneg, abs_of_neg, min_def, abs_lt]) (by norm_num [abs_of_nonneg, abs_of_neg, min_def])]
  norm_num

theorem lit_test_c : F64.lit 0.12345678901234 = 4447999591938659 / 2 ^ 55 := by
  rw [F64.lit_eq 0.12345678901234 (-4) 8895999183877318 (by norm_num)
    (by norm_num [abs_of_nonneg, abs_of_neg, min_def]) (by norm_num [abs_of_nonneg, abs_of_neg, min_def])
    (by norm_num [abs_of_nonneg, abs_of_neg, min_def, abs_lt]) (by norm_num [abs_of_nonneg, abs_of_neg, min_def])]
  norm_num

theorem lit_test_d : F64.lit 0.12345678902234 = 4447999592298947 / 2 ^ 55 := by
  rw [F64.lit_eq 0.12345678902234 (-4) 8895999184597894 (by norm_num)
    (by norm_num [abs_of_nonneg, abs_of_neg, min_def]) (by norm_num [abs_of_nonneg, abs_of_neg, min_def])
    (by norm_num [abs_of_nonneg, abs_of_neg, min_def, abs_lt]) (by norm_num [abs_of_nonneg, abs_of_neg, min_def])]
  norm_num

theorem lit_half : F64.lit 0.5 = 1 / 2 ^ 1 := by
  rw [F64.lit_eq 0.5 (-1) 4503599627370496 (by norm_num)
    (by norm_num [abs_of_nonneg, abs_of_neg, min_def]) (by norm_num [abs_of_nonneg, abs_of_neg, min_def])
    (by norm_num [abs_of_nonneg, abs_of_neg, min_def, abs_lt]) (by norm_num [abs_of_nonneg, abs_of_neg, min_def])]
  norm_num

theorem lit_half_up : F64.lit 0.5000000000072759576141834259033203125 = 68719476737 / 2 ^ 37 := by
  rw [F64.lit_eq 0.5000000000072759576141834259033203125 (-1) 4503599627436032 (by norm_num)
    (by norm_num [abs_of_nonneg, abs_of_neg, min_def]) (by norm_num [abs_of_nonneg, abs_of_neg, min_def])
    (by norm_num [abs_of_nonneg, abs_of_neg, min_def, abs_lt]) (by norm_num [abs_of_nonneg, abs_of_neg, min_def])]
  norm_num

theorem lit_million : F64.lit 1000000 = 1000000 := by
  rw [F64.lit_eq 1000000 (19) 8589934592000000 (by norm_num)
    (by norm_num [abs_of_nonneg, abs_of_neg, min_def]) (by norm_num [abs_of_nonneg, abs_of_neg, min_def])
    (by norm_num [abs_of_nonneg, abs_of_neg, min_def, abs_lt]) (by norm_num [abs_of_nonneg, abs_of_neg, min_def])]
  norm_num

theorem lit_million_up : F64.lit 1000000.000003814697265625 = 262144000001 / 2 ^ 18 := by
  rw [F64.lit_eq 1000000.000003814697265625 (19) 8589934592032768 (by norm_num)
    (by norm_num [abs_of_nonneg, abs_of_neg, min_def]) (by norm_num [abs_of_nonneg, abs_of_neg, min_def])
    (by norm_num [abs_of_nonneg, abs_of_neg, min_def, abs_lt]) (by norm_num [abs_of_nonneg, abs_of_neg, min_def])]
  norm_num

theorem lit_e11 : F64.lit 100000000000 = 100000000000 := by
  rw [F64.lit_eq 100000000000 (36) 6553600000000000 (by norm_num)
    (by norm_num [abs_of_nonneg, abs_of_neg, min_def]) (by norm_num [abs_of_nonneg, abs_of_neg, min_def])
    (by norm_num [abs_of_nonneg, abs_of_neg, min_def, abs_lt]) (by norm_num [abs_of_nonneg, abs_of_neg, min_def])]
  norm_num

theorem lit_e11_up : F64.lit 100000000001 = 100000000001 := by
  rw [F64.lit_eq 100000000001 (36) 6553600000065536 (by norm_num)
    (by norm_num [abs_of_nonneg, abs_of_neg, min_def]) (by norm_num [abs_of_nonneg, abs_of_neg, min_def])
    (by norm_num [abs_of_nonneg, abs_of_neg, min_def, abs_lt]) (by norm_num [abs_of_nonneg, abs_of_neg, min_def])]
  norm_num

theorem within_test_ab :
    withinFraction (F64.lit 0.1234567890022) (F64.lit 0.123456789001) := by
  unfold withinFraction
  rw [lit_fraction, lit_test_a, lit_test_b]
  rw [withinRelative_of _ _ _ (-40) 6113284089037794 (-40) (5942104433885184)
    (by norm_num) (by norm_num [abs_of_nonneg, abs_of_neg, min_def]) (by norm_num [abs_of_nonneg, abs_of_neg, min_def])
    (by norm_num [abs_of_nonneg, abs_of_neg, min_def, abs_lt]) (by norm_num [abs_of_nonneg, abs_of_neg, min_def])
    (by norm_num) (by norm_num [abs_of_nonneg, abs_of_neg, min_def]) (by norm_num [abs_of_nonneg, abs_of_neg, min_def])
    (by norm_num [abs_of_nonneg, abs_of_neg, min_def, abs_lt]) (by norm_num [abs_of_nonneg, abs_of_neg, min_def])]
  norm_num [abs_of_nonneg, abs_of_neg]

theorem not_within_test_cd :
    ¬ withinFraction (F64.lit 0.12345678901234) (F64.lit 0.12345678902234) := by
  unfold withinFraction
  rw [lit_fraction, lit_test_c, lit_test_d]
  rw [withinRelative_of _ _ _ (-40) 6113284089599323 (-37) (-6189700708564992)
    (by norm_num) (by norm_num [abs_of_nonneg, abs_of_neg, min_def]) (by norm_num [abs_of_nonneg, abs_of_neg, min_def])
    (by norm_num [abs_of_nonneg, abs_of_neg, min_def, abs_lt]) (by norm_num [abs_of_nonneg, abs_of_neg, min_def])
    (by norm_num) (by norm_num [abs_of_nonneg, abs_of_neg, min_def]) (by norm_num [abs_of_nonneg, abs_of_neg, min_def])
    (by norm_num [abs_of_nonneg, abs_of_neg, min_def, abs_lt]) (by norm_num [abs_of_nonneg, abs_of_neg, min_def])]
  norm_num [abs_of_nonneg, abs_of_neg]

theorem not_within_half :
    ¬ withinFraction (F64.lit 0.5) (F64.lit 0.5000000000072759576141834259033203125) := by
  unfold withinFraction
  rw [lit_fraction, lit_half, lit_half_up]
  rw [withinRelative_of _ _ _ (-38) 6189700196426901 (-37) (-4503599627370496)
    (by norm_num) (by norm_num [abs_of_nonneg, abs_of_neg, min_def]) (by norm_num [abs_of_nonneg, abs_of_neg, min_def])
    (by norm_num [abs_of_nonneg, abs_of_neg, min_def, abs_lt]) (by norm_num [abs_of_nonneg, abs_of_neg, min_def])
    (by norm_num) (by norm_num [abs_of_nonneg, abs_of_neg, min_def]) (by norm_num [abs_of_nonneg, abs_of_neg, min_def])
    (by norm_num [abs_of_nonneg, abs_of_neg, min_def, abs_lt]) (by norm_num [abs_of_nonneg, abs_of_neg, min_def])]
  norm_num [abs_of_nonneg, abs_of_neg]

theorem within_million :
    withinFraction (F64.lit 1000000) (F64.lit 1000000.000003814697265625) := by
  unfold withinFraction
  rw [lit_fraction, lit_million, lit_million_up]
  rw [withinRelative_of _ _ _ (-17) 5902958103587056 (-18) (-4503599627370496)
    (by norm_num) (by norm_num [abs_of_nonneg, abs_of_neg, min_def]) (by norm_num [abs_of_nonneg, abs_of_neg, min_def])
    (by norm_num [abs_of_nonneg, abs_of_neg, min_def, abs_lt]) (by norm_num [abs_of_nonneg, abs_of_neg, min_def])
    (by norm_num) (by norm_num [abs_of_nonneg, abs_of_neg, min_def]) (by norm_num [abs_of_nonneg, abs_of_neg, min_def])
    (by norm_num [abs_of_nonneg, abs_of_neg, min_def, abs_lt]) (by norm_num [abs_of_nonneg, abs_of_neg, min_def])]
  norm_num [abs_of_nonneg, abs_of_neg]

theorem not_within_e11 :
    ¬ withinFraction (F64.lit 100000000000) (F64.lit 100000000001) := by
  unfold withinFraction
  rw [lit_fraction, lit_e11, lit_e11_up]
  rw [withinRelative_of _ _ _ (-1) 9007199254740991 (0) (-4503599627370496)
    (by norm_num) (by norm_num [abs_of_nonneg, abs_of_neg, min_def]) (by norm_num [abs_of_nonneg, abs_of_neg, min_def])
    (by norm_num [abs_of_nonneg, abs_of_neg, min_def, abs_lt]) (by norm_num [abs_of_nonneg, abs_of_neg, min_def])
    (by norm_num) (by norm_num [abs_of_nonneg, abs_of_neg, min_def]) (by norm_num [abs_of_nonneg, abs_of_neg, min_def])
    (by norm_num [abs_of_nonneg, abs_of_neg, min_def, abs_lt]) (by norm_num [abs_of_nonneg, abs_of_neg, min_def])]
  norm_num [abs_of_nonneg, abs_of_neg]

mutual
theorem equal_self : ∀ v : Value, cmp.Equal NewGocmpSnapshotter.GocmpOptions v v = true
  | .nil => by simp [cmp.Equal]
  | .str _ => by simp [cmp.Equal]
  | .bytes _ => by simp [cmp.Equal]
  | .int _ => by simp [cmp.Equal]
  | .float x => by
    rw [cmp.Equal]
    exact (equalFloat_default x x).mpr (withinFraction_self x)
  | .bool _ => by simp [cmp.Equal]
  | .slice xs => by
    rw [cmp.Equal]
    exact equalSlice_self xs
  | .map kvs => by
    rw [cmp.Equal]
    exact equalMap_self kvs
theorem equalSlice_self : ∀ xs : List Value,
    cmp.equalSlice NewGocmpSnapshotter.GocmpOptions xs xs = true
  | [] => by simp [cmp.equalSlice]
  | x :: xs => by
    rw [cmp.equalSlice, equal_self x, equalSlice_self xs]
    rfl
theorem equalMap_self : ∀ kvs : List (String × Value),
    cmp.equalMap NewGocmpSnapshotter.GocmpOptions kvs kvs = true
  | [] => by simp [cmp.equalMap]
  | (k, x) :: kvs => by
    rw [cmp.equalMap, equal_self x, equalMap_self kvs]
    simp
end

theorem equal_sameButNumbers (v w : Value) (h : sameButNumbers v w) :
    cmp.Equal NewGocmpSnapshotter.GocmpOptions v w = true ↔ numbersWithinFraction v w := by
  rcases h with rfl | ⟨x, y, rfl, rfl⟩
  · constructor
    · intro _ x y hx hy
      rw [hx] at hy
      cases hy
      exact withinFraction_self x
    · intro _
      exact equal_self v
  · rw [cmp.Equal, equalFloat_default]
    constructor
    · intro h a b ha hb
      cases ha
      cases hb
      exact h
    · intro h
      exact h x y rfl rfl

theorem equalSlice_sameButNumbers (vs ws : List Value)
    (h : List.Forall₂ sameButNumbers vs ws) :
    cmp.equalSlice NewGocmpSnapshotter.GocmpOptions vs ws = true ↔
      List.Forall₂ numbersWithinFraction vs ws := by
  induction h with
  | nil => simp [cmp.equalSlice]
  | cons hvw _ ih =>
    rw [cmp.equalSlice, Bool.and_eq_true, equal_sameButNumbers _ _ hvw, ih, List.forall₂_cons]

/-- C9, as amended. With the options of `NewGocmpSnapshotter`, for two snapshots that
are sequences of the same length whose elements are pairwise the same or both
float64 numbers: `Diff` is empty exactly when every pair of numbers `x`, `y` is
within the relative tolerance that go-cmp computes in float64, the rounded `x - y`
being in magnitude at most the rounded product of the float64 nearest `1e-11` and
`min(|x|, |y|)`; a pair further apart than that makes the diff non-empty. The report
go-cmp prints for values it found different is assumed not to be empty. -/
theorem gocmp_diff_tolerance (L : Lib) (vs ws : List Value)
    (hshape : List.Forall₂ sameButNumbers vs ws)
    (hreport : L.Report (.slice vs) (.slice ws) NewGocmpSnapshotter.GocmpOptions ≠ "") :
    NewGocmpSnapshotter.Diff L (.slice vs) (.slice ws) = "" ↔
      List.Forall₂ numbersWithinFraction vs ws := by
  rw [← equalSlice_sameButNumbers vs ws hshape]
  unfold GocmpSnapshotter.Diff cmp.Diff
  rw [cmp.Equal]
  by_cases h : cmp.equalSlice NewGocmpSnapshotter.GocmpOptions vs ws = true
  · simp [h]
  · simp [h, hreport]

/-- Witness of C9 as amended, with the numbers of the test "Float within margin":
0.1234567890022 and 0.123456789001 are reported equal, 0.12345678901234 and
0.12345678902234 are reported as changed. -/
theorem gocmp_diff_tolerance_witness :
    NewGocmpSnapshotter.Diff sample.lib (.slice [.float (F64.lit 0.1234567890022)])
        (.slice [.float (F64.lit 0.123456789001)]) = "" ∧
      NewGocmpSnapshotter.Diff sample.lib
        (.slice [.float (F64.lit 0.9999999999999999), .float (F64.lit 0.12345678901234),
          .float (F64.lit 0.1234567890022)])
        (.slice [.float (F64.lit 0.9999999999999999), .float (F64.lit 0.12345678902234),
          .float (F64.lit 0.123456789001)])
        ≠ "" := by
  constructor
  · refine (gocmp_diff_tolerance sample.lib _ _
      (List.Forall₂.cons (Or.inr ⟨_, _, rfl, rfl⟩) List.Forall₂.nil) (by decide)).mpr ?_
    refine List.Forall₂.cons ?_ List.Forall₂.nil
    intro x y hx hy
    cases hx
    cases hy
    exact within_test_ab
  · intro h
    have h2 := (gocmp_diff_tolerance sample.lib _ _
      (List.Forall₂.cons (Or.inl rfl) (List.Forall₂.cons (Or.inr ⟨_, _, rfl, rfl⟩)
        (List.Forall₂.cons (Or.inr ⟨_, _, rfl, rfl⟩) List.Forall₂.nil))) (by decide)).mp h
    rw [List.forall₂_cons, List.forall₂_cons] at h2
    exact not_within_test_cd (h2.2.1 _ _ rfl rfl)

theorem diff_single (L : Lib) (x y : ℚ) :
    NewGocmpSnapshotter.Diff L (.slice [.float x]) (.slice [.float y]) =
      if cmp.equalFloat NewGocmpSnapshotter.GocmpOptions x y = true then ""
      else L.Report (.slice [.float x]) (.slice [.float y]) NewGocmpSnapshotter.GocmpOptions := by
  unfold GocmpSnapshotter.Diff cmp.Diff
  rw [cmp.Equal, cmp.equalSlice, cmp.Equal, cmp.equalSlice, Bool.and_true]

/-- Counterexample to C9 as stated (absolute tolerance 1e-11), at float64 values:
0.5 and 0.5 + 2^-37 are less than 1e-11 apart, within the absolute tolerance, and the
diff is not empty; 1000000 and 1000000 + 2^-18 are more than 1e-11 apart, beyond it,
and the diff is empty. -/
theorem gocmp_diff_absolute_counterexample :
    (F64.lit 0.5000000000072759576141834259033203125 =
        0.5000000000072759576141834259033203125 ∧
      |(0.5 : ℚ) - 0.5000000000072759576141834259033203125| ≤ 0.00000000001 ∧
      NewGocmpSnapshotter.Diff sample.lib (.slice [.float (F64.lit 0.5)])
        (.slice [.float (F64.lit 0.5000000000072759576141834259033203125)]) ≠ "") ∧
    (F64.lit 1000000.000003814697265625 = 1000000.000003814697265625 ∧
      ¬ |(1000000 : ℚ) - 1000000.000003814697265625| ≤ 0.00000000001 ∧
      NewGocmpSnapshotter.Diff sample.lib (.slice [.float (F64.lit 1000000)])
        (.slice [.float (F64.lit 1000000.000003814697265625)]) = "") := by
  refine ⟨⟨?_, by norm_num [abs_of_neg], ?_⟩, ⟨?_, by norm_num [abs_of_neg], ?_⟩⟩
  · rw [lit_half_up]
    norm_num
  · rw [diff_single, if_neg]
    · decide
    · rw [equalFloat_default]
      exact not_within_half
  · rw [lit_million_up]
    norm_num
  · rw [diff_single, if_pos]
    rw [equalFloat_default]
    exact within_million

/-- Rounding at the edge of the tolerance: 1e11 and 1e11 + 1 are float64 values exactly
`1e-11 * min(|x|, |y|)` apart, and the diff is not empty, because the float64 nearest
`1e-11` is below `1e-11` and the product rounds to less than 1. -/
theorem gocmp_diff_rounding_edge :
    F64.lit 100000000000 = 100000000000 ∧ F64.lit 100000000001 = 100000000001 ∧
      |(100000000000 : ℚ) - 100000000001| = 0.00000000001 * min |100000000000| |100000000001| ∧
      NewGocmpSnapshotter.Diff sample.lib (.slice [.float (F64.lit 100000000000)])
        (.slice [.float (F64.lit 100000000001)]) ≠ "" := by
  refine ⟨lit_e11, lit_e11_up, by norm_num [abs_of_neg, abs_of_nonneg, min_def], ?_⟩
  rw [diff_single, if_neg]
  · decide
  · rw [equalFloat_default]
    exact not_within_e11

end cupaloy
